import Mathlib

set_option linter.unusedVariables false

/-!
Verification of the DAL (data access layer) repository: a shallow embedding of
the storage contract, its counters, options/hooks, the File, Memory, Redis and
Insightly adapters, the metric-identifier construction, and the fan-out layer,
together with theorems settling the specification claims.

Conventions of the embedding:
* Machine state that an adapter can observe or mutate (its counters, the
  in-memory map, the local file system) is threaded explicitly.
* Calls that cross into an external driver or the OS are recorded as events
  (`Ev`), and their outcomes are supplied by a small environment record, so a
  theorem quantifying over environments covers every driver behaviour.
* Hooks are modelled by the outcome they produce for the call at hand
  (`none` = success, `some e` = the error they return); every property claimed
  about hooks depends only on this outcome.
* Go byte slices holding JSON documents are modelled as `String`s, and the
  `encoding/json` codec is modelled by an executable serializer and parser over
  a canonical JSON value type, with a proved round-trip theorem.
-/

/-- Error values of the `customerror` taxonomy as used by the repository:
`NewRequiredError`, `NewFailedToError`, `NewNotFoundError`, `NewMissingError`,
`NewHTTPError`, plus the aggregate multi-error of `concurrentloop.Errors`. -/
inductive Err where
  | required (field : String)
  | failedTo (op : String)
  | notFound (op : String)
  | missing (what : String)
  | httpErr (code : Nat)
  | aggregate (errs : List Err)
  | customMsg (msg : String)

/-- Outcome of a Go function call: a normal return value, an error return, or a
runtime panic. -/
inductive Res (α : Type) where
  | ok (val : α)
  | err (e : Err)
  | panicked (msg : String)

/-- Whether an outcome is a panic. -/
def Res.isPanic {α : Type} : Res α → Bool
  | .panicked _ => true
  | _ => false

/-- The fixed counter set of `storage.Storage` (src/unnamed/part_010 lines
990-1003): one success and one failed counter per operation plus ping-failed
and instantiation-failed. Counter values are naturals; `expvar.Int.Add(1)` is
modelled by the increment functions below. -/
structure Counters where
  counted : Nat
  countedFailed : Nat
  created : Nat
  createdFailed : Nat
  deleted : Nat
  deletedFailed : Nat
  listed : Nat
  listedFailed : Nat
  retrieved : Nat
  retrievedFailed : Nat
  updated : Nat
  updatedFailed : Nat
  pingFailed : Nat
  instantiationFailed : Nat
deriving DecidableEq

/-- All counters zero, as set by `metrics.NewInt` (`counter.Set(0)`). -/
def Counters.init : Counters := ⟨0, 0, 0, 0, 0, 0, 0, 0, 0, 0, 0, 0, 0, 0⟩

def Counters.incCounted (c : Counters) : Counters := { c with counted := c.counted + 1 }

def Counters.incCountedFailed (c : Counters) : Counters := { c with countedFailed := c.countedFailed + 1 }

def Counters.incCreated (c : Counters) : Counters := { c with created := c.created + 1 }

def Counters.incCreatedFailed (c : Counters) : Counters := { c with createdFailed := c.createdFailed + 1 }

def Counters.incDeleted (c : Counters) : Counters := { c with deleted := c.deleted + 1 }

def Counters.incDeletedFailed (c : Counters) : Counters := { c with deletedFailed := c.deletedFailed + 1 }

def Counters.incListed (c : Counters) : Counters := { c with listed := c.listed + 1 }

def Counters.incListedFailed (c : Counters) : Counters := { c with listedFailed := c.listedFailed + 1 }

def Counters.incRetrieved (c : Counters) : Counters := { c with retrieved := c.retrieved + 1 }

def Counters.incRetrievedFailed (c : Counters) : Counters := { c with retrievedFailed := c.retrievedFailed + 1 }

def Counters.incUpdated (c : Counters) : Counters := { c with updated := c.updated + 1 }

def Counters.incUpdatedFailed (c : Counters) : Counters := { c with updatedFailed := c.updatedFailed + 1 }

/-- The six operations of the storage contract (src/unnamed/part_012 lines
34-41, `Operation`). -/
inductive Op where
  | count
  | create
  | retrieve
  | update
  | delete
  | list
deriving DecidableEq

/-- Sum of the success and failed counter of one operation. -/
def Counters.sumOf (c : Counters) : Op → Nat
  | .count => c.counted + c.countedFailed
  | .create => c.created + c.createdFailed
  | .retrieve => c.retrieved + c.retrievedFailed
  | .update => c.updated + c.updatedFailed
  | .delete => c.deleted + c.deletedFailed
  | .list => c.listed + c.listedFailed

/-- Observable events of a single operation call: hook invocations, OS file
system calls, Redis commands, in-memory map accesses, and HTTP requests. -/
inductive Ev where
  | preHook
  | postHook
  | osStat (path : String)
  | osMkdirAll (path : String)
  | osCreate (path : String)
  | osOpen (path : String)
  | osRemove (path : String)
  | globCall (dir pattern : String)
  | memLoad (id : String)
  | memStore (id val : String)
  | memDelete (id : String)
  | memRange
  | redisKeys (pattern : String)
  | redisGet (id : String)
  | redisSet (id val : String)
  | redisDel (id : String)
  | redisScan (pattern : String)
  | httpPost (endpoint : String)
  | s3ListObjects
  | s3GetObject (key : String)
  | s3PutObject (key : String)
  | s3DeleteObject (key : String)
deriving DecidableEq

/-- Canonical JSON documents: the model of the values that Go's
`encoding/json` can produce and consume. Numbers are modelled as integers
(the canonicalisation the round-trip claim is stated modulo). -/
inductive Json where
  | null
  | bool (b : Bool)
  | num (n : Int)
  | str (s : String)
  | arr (xs : List Json)
  | obj (fields : List (String × Json))

/-- The decimal digit character for `n % 10`-style values. -/
def digitChar (n : Nat) : Char :=
  match n with
  | 0 => '0'
  | 1 => '1'
  | 2 => '2'
  | 3 => '3'
  | 4 => '4'
  | 5 => '5'
  | 6 => '6'
  | 7 => '7'
  | 8 => '8'
  | _ => '9'

/-- Numeric value of a decimal digit character. -/
def digitVal (c : Char) : Nat := c.toNat - 48

/-- Fuel-indexed digit expansion; any fuel above the value itself is
enough. -/
def natDigitsAux : Nat → Nat → List Char
  | 0, _ => []
  | fuel + 1, n =>
    if n < 10 then [digitChar n]
    else natDigitsAux fuel (n / 10) ++ [digitChar (n % 10)]

/-- Decimal digits of a natural number, most significant first (model of
`strconv` formatting used by `encoding/json`). -/
def natDigits (n : Nat) : List Char := natDigitsAux (n + 1) n

/-- Decimal rendering of an integer. -/
def intChars (n : Int) : List Char :=
  if n < 0 then '-' :: natDigits n.natAbs else natDigits n.natAbs

/-- JSON string escaping for one character (quote and backslash). -/
def escChar (c : Char) : List Char :=
  if c = '"' ∨ c = '\\' then ['\\', c] else [c]

/-- JSON string escaping. -/
def escChars (s : List Char) : List Char :=
  s.foldr (fun c acc => escChar c ++ acc) []

mutual

/-- Serialization of a JSON document to characters: the model of
`json.Marshal` on canonical documents. -/
def serChars : Json → List Char
  | .null => 'n' :: 'u' :: 'l' :: 'l' :: []
  | .bool true => 't' :: 'r' :: 'u' :: 'e' :: []
  | .bool false => 'f' :: 'a' :: 'l' :: 's' :: 'e' :: []
  | .num n => intChars n
  | .str s => '"' :: (escChars s.data ++ ['"'])
  | .arr xs => '[' :: serArrBody xs
  | .obj fs => '{' :: serObjBody fs

/-- Body of a serialized array (everything after the opening bracket). -/
def serArrBody : List Json → List Char
  | [] => [']']
  | x :: xs => serChars x ++ serArrTail xs

/-- Tail items of a serialized array, each preceded by a comma. -/
def serArrTail : List Json → List Char
  | [] => [']']
  | x :: xs => ',' :: (serChars x ++ serArrTail xs)

/-- Body of a serialized object (everything after the opening brace). -/
def serObjBody : List (String × Json) → List Char
  | [] => ['}']
  | f :: fs => serField f ++ serObjTail fs

/-- Tail fields of a serialized object, each preceded by a comma. -/
def serObjTail : List (String × Json) → List Char
  | [] => ['}']
  | f :: fs => ',' :: (serField f ++ serObjTail fs)

/-- One serialized object field: quoted key, colon, value. -/
def serField : String × Json → List Char
  | (k, v) => '"' :: (escChars k.data ++ ['"'] ++ (':' :: serChars v))

end

mutual

/-- Fuel bound needed by the parser for a document: one unit per nesting
step. -/
def wJson : Json → Nat
  | .null => 1
  | .bool _ => 1
  | .num _ => 1
  | .str _ => 1
  | .arr xs => wItems xs + 1
  | .obj fs => wFields fs + 1

/-- Fuel bound for a non-empty array item list. -/
def wItems : List Json → Nat
  | [] => 0
  | x :: xs => wJson x + wItems xs + 1

/-- Fuel bound for a non-empty object field list. -/
def wFields : List (String × Json) → Nat
  | [] => 0
  | (_, v) :: fs => wJson v + wFields fs + 1

end

/-- Body of a JSON string literal: consume characters up to the closing
quote, unescaping backslash pairs. -/
def parseStrBody : List Char → Option (List Char × List Char)
  | [] => none
  | c :: rest =>
    if c = '\\' then
      match rest with
      | [] => none
      | c2 :: rest2 =>
        match parseStrBody rest2 with
        | some (s, r) => some (c2 :: s, r)
        | none => none
    else if c = '"' then some ([], rest)
    else
      match parseStrBody rest with
      | some (s, r) => some (c :: s, r)
      | none => none

/-- Numeric value of a digit string (most significant first). -/
def digitsVal (ds : List Char) : Nat :=
  ds.foldl (fun a c => a * 10 + digitVal c) 0

/-- Parse a non-empty run of decimal digits. -/
def parseNatPart (cs : List Char) : Option (Nat × List Char) :=
  let ds := cs.takeWhile Char.isDigit
  if ds = [] then none
  else some (digitsVal ds, cs.dropWhile Char.isDigit)

mutual

/-- Fuel-indexed JSON parser: the model of `json.Unmarshal` on canonical
documents. -/
def parseVal : Nat → List Char → Option (Json × List Char)
  | 0, _ => none
  | _ + 1, [] => none
  | fuel + 1, c :: r =>
    if c.isDigit then
      match parseNatPart (c :: r) with
      | some (m, r2) => some (.num (m : Int), r2)
      | none => none
    else if c = '-' then
      match parseNatPart r with
      | some (m, r2) => some (.num (-(m : Int)), r2)
      | none => none
    else if c = '"' then
      match parseStrBody r with
      | some (s, r2) => some (.str (String.mk s), r2)
      | none => none
    else if c = '[' then
      match r with
      | [] => none
      | c2 :: r2 =>
        if c2 = ']' then some (.arr [], r2)
        else
          match parseItems fuel (c2 :: r2) with
          | some (xs, r3) => some (.arr xs, r3)
          | none => none
    else if c = '{' then
      match r with
      | [] => none
      | c2 :: r2 =>
        if c2 = '}' then some (.obj [], r2)
        else
          match parseFields fuel (c2 :: r2) with
          | some (fs, r3) => some (.obj fs, r3)
          | none => none
    else if c = 'n' then
      match r with
      | 'u' :: 'l' :: 'l' :: r2 => some (.null, r2)
      | _ => none
    else if c = 't' then
      match r with
      | 'r' :: 'u' :: 'e' :: r2 => some (.bool true, r2)
      | _ => none
    else if c = 'f' then
      match r with
      | 'a' :: 'l' :: 's' :: 'e' :: r2 => some (.bool false, r2)
      | _ => none
    else none

/-- Parse one or more comma-separated array items up to the closing
bracket. -/
def parseItems : Nat → List Char → Option (List Json × List Char)
  | 0, _ => none
  | fuel + 1, cs =>
    match parseVal fuel cs with
    | none => none
    | some (v, r) =>
      match r with
      | [] => none
      | c :: r2 =>
        if c = ',' then
          match parseItems fuel r2 with
          | some (vs, r3) => some (v :: vs, r3)
          | none => none
        else if c = ']' then some ([v], r2)
        else none

/-- Parse one or more comma-separated object fields up to the closing
brace. -/
def parseFields : Nat → List Char → Option (List (String × Json) × List Char)
  | 0, _ => none
  | fuel + 1, cs =>
    match cs with
    | [] => none
    | c0 :: r =>
      if c0 = '"' then
        match parseStrBody r with
        | none => none
        | some (k, r1) =>
          match r1 with
          | [] => none
          | c1 :: r2 =>
            if c1 = ':' then
              match parseVal fuel r2 with
              | none => none
              | some (v, r3) =>
                match r3 with
                | [] => none
                | c3 :: r4 =>
                  if c3 = ',' then
                    match parseFields fuel r4 with
                    | some (fs, r5) => some ((String.mk k, v) :: fs, r5)
                    | none => none
                  else if c3 = '}' then some ([(String.mk k, v)], r4)
                  else none
            else none
      else none

end

/-- Model of `shared.Marshal` (src/unnamed/part_006 lines 72-81) restricted
to canonical JSON documents, on which `json.Marshal` cannot fail: the byte
slice is the serialized document. -/
def sharedMarshal (v : Json) : String := String.mk (serChars v)

/-- Model of `shared.Unmarshal` (src/unnamed/part_006 lines 61-69): parse the
bytes as a full JSON document; a parse failure is the wrapped
`FailedTo("to unmarshal")` error of the source. -/
def sharedUnmarshal (s : String) : Except Err Json :=
  match parseVal (s.data.length + 1) s.data with
  | some (v, []) => .ok v
  | _ => .error (.failedTo "to unmarshal")

/-- `shared.TargetName` (src/unnamed/part_006 lines 133-143): the provided
target name, or the configured alternative; both empty is a missing-target
error paired with the empty string, exactly as the Go function returns
`("", err)`. -/
def TargetName (name alternative : String) : String × Option Err :=
  if name ≠ "" then (name, none)
  else if alternative ≠ "" then (alternative, none)
  else ("", some (.missing "target name"))

/-- `storage.ParseToStruct` (src/storage/util.go lines 8-15): marshal `from`
and unmarshal the bytes into the sink. -/
def ParseToStruct (from' : Json) : Except Err Json :=
  sharedUnmarshal (sharedMarshal from')

/-- `storage.Flatten2D` (src/storage/util.go lines 20-30). -/
def Flatten2D {T : Type} (data : List (List T)) : List T :=
  data.foldl (fun result outer => outer.foldl (fun r inner => r ++ [inner]) result) []

/-- `storage.ErrRequiredPreHook` (src/storage/options.go line 21). -/
def ErrRequiredPreHook : Err := .required "pre-hook function"

/-- `storage.ErrRequiredPostHook` (src/storage/options.go line 17). -/
def ErrRequiredPostHook : Err := .required "post-hook function"

/-- A hook function, modelled by the outcome it produces when invoked on the
arguments of the call at hand: `none` is success, `some e` is the error `e`
it returns. Every specified property of hooks depends only on this
outcome. -/
abbrev HookOutcome := Option Err

/-- `storage.Options` (src/storage/options.go lines 32-38): the per-call
pre- and post-hook slots. `none` models a nil function pointer. -/
structure Options where
  PreHookFunc : Option HookOutcome
  PostHookFunc : Option HookOutcome

/-- `storage.Func` (src/storage/options.go line 29): an option function. -/
abbrev OptFn := Options → Except Err Options

/-- `storage.WithPreHook` (src/storage/options.go lines 45-55): reject a nil
hook function with `ErrRequiredPreHook`, otherwise install it. -/
def WithPreHook (fn : Option HookOutcome) : OptFn := fun o =>
  match fn with
  | none => .error ErrRequiredPreHook
  | some h => .ok { o with PreHookFunc := some h }

/-- `storage.WithPostHook` (src/storage/options.go lines 58-68). -/
def WithPostHook (fn : Option HookOutcome) : OptFn := fun o =>
  match fn with
  | none => .error ErrRequiredPostHook
  | some h => .ok { o with PostHookFunc := some h }

/-- `storage.NewOptions` (src/storage/options.go lines 71-79): a fresh
`Options` value; its validation has no constraints and never fails. -/
def NewOptions : Options := ⟨none, none⟩

/-- The options-application loop every adapter method runs (`for _, option :=
range options { if err := option(o); ... }`). -/
def applyOptions (opts : List OptFn) (o : Options) : Except Err Options :=
  match opts with
  | [] => .ok o
  | f :: rest =>
    match f o with
    | .error e => .error e
    | .ok o2 => applyOptions rest o2

/-- `count.Count` parameters; only the `Search` field is read by the
modelled adapters. -/
structure CountPrm where
  Search : String

/-- `count.New()` output: defaults before the adapter applies its own. -/
def countNew : CountPrm := ⟨""⟩

/-- `list.List` parameters; only the `Search` field is read by the modelled
adapters. -/
structure ListPrm where
  Search : String

/-- `list.New()` output. -/
def listNew : ListPrm := ⟨""⟩

/-- `file.CreateAny` (src/file/types.go lines 9-12): the `Any` payload the
File adapter recognises on Create. -/
structure CreateAny where
  CreateIfNotExist : Bool

/-- `create.Create` parameters: the TTL and the open `Any` slot, modelled by
whether it holds a `*file.CreateAny` (the only type the modelled adapters
assert on). -/
structure CreatePrm where
  TTL : Int
  AnySlot : Option CreateAny

/-- `create.New()` output. -/
def createNew : CreatePrm := ⟨0, none⟩

/-- `update.Update` parameters. -/
structure UpdatePrm where
  TTL : Int

/-- `update.New()` output. -/
def updateNew : UpdatePrm := ⟨0⟩

/-- `retrieve.Retrieve` parameters: none of its fields are read by the
modelled adapters. -/
structure RetrievePrm where
  unused : Unit := ()

/-- `delete.Delete` parameters: none of its fields are read by the modelled
adapters. -/
structure DeletePrm where
  unused : Unit := ()

/-- Modelled from the spec: `customapm.TraceError` (internal/customapm, not
part of the source tree; only its call sites are). Per the observability
contract it logs the error, increments the failed counter it is given
(nil-safe), and returns the error untouched. Logging and span recording have
no observable effect in the model. -/
def TraceError (e : Err) (bump : Counters → Counters) (c : Counters) : Err × Counters :=
  (e, bump c)

/-- Abbreviation for the variadic option-function list (avoids the adapter
`List` methods shadowing the `List` type inside their namespaces). -/
abbrev OptFns := List OptFn

/-- Abbreviation for an event trace. -/
abbrev Evs := List Ev

/-- Look up a file's content by path. -/
def lookupFile (files : List (String × String)) (p : String) : Option String :=
  (files.find? (fun q => q.1 = p)).map (fun q => q.2)

/-- Write (create or truncate) a file. -/
def setFile (files : List (String × String)) (p content : String) : List (String × String) :=
  (p, content) :: files.filter (fun q => q.1 ≠ p)

/-- Remove a file. -/
def removeFile (files : List (String × String)) (p : String) : List (String × String) :=
  files.filter (fun q => q.1 ≠ p)

/-- Whether a file exists. -/
def fileExists (files : List (String × String)) (p : String) : Bool :=
  files.any (fun q => q.1 = p)

/-- Model of `filepath.Dir` for slash-separated paths: everything before the
last separator (`"."` when there is none). -/
def dirOf (path : String) : String :=
  let l := ((path.data.reverse.dropWhile (fun c => c ≠ '/')).drop 1).reverse
  if l = [] then "." else String.mk l

/-- Model of `json.NewEncoder(w).Encode(v)` (`shared.Encode`,
src/unnamed/part_006 lines 95-103): the serialized document followed by the
newline the encoder appends. -/
def sharedEncode (v : Json) : String := String.mk (serChars v ++ ['\n'])

/-- Model of `json.NewDecoder(r).Decode(v)` (`shared.Decode`,
src/unnamed/part_006 lines 84-92): parse one JSON document from the front of
the stream, ignoring what follows. -/
def sharedDecode (s : String) : Except Err Json :=
  match parseVal (s.data.length + 1) s.data with
  | some (v, _) => .ok v
  | none => .error (.failedTo "decode")

/-- The `ResponseListKeys` document (src/file/types.go lines 4-6) holding
glob/scan matches, as the JSON value `ParseToStruct` marshals. -/
def keysJson (keys : List String) : Json :=
  .obj [("keys", .arr (keys.map .str))]

/-- The File adapter (src/file/types.go lines 52-63): the embedded
`storage.Storage` counters, the static `Target`, and — because the adapter
operates on the local file system — the directories and files it can see. -/
structure File where
  Target : String
  counters : Counters
  dirs : List String
  files : List (String × String)
deriving DecidableEq

/-- Outcomes of the OS calls the File adapter makes, for the error paths the
file system state does not determine: `fs.Glob`'s result, and whether
`os.Open`/`os.Remove`/`os.Create` fail for a reason other than the file's
absence (permissions etc.). -/
structure FileEnv where
  glob : Except Unit (List String)
  openOtherErr : Bool
  removeOtherErr : Bool
  createFails : Bool

/-- `File.Count` (src/file/types.go lines 70-168). -/
def File.Count (s : File) (env : FileEnv) (target : String) (prm : Option CountPrm)
    (opts : List OptFn) : Res Int × File × List Ev :=
  match applyOptions opts NewOptions with
  | .error e => (.err e, { s with counters := s.counters.incCountedFailed }, [])
  | .ok o =>
    let finalParam : CountPrm :=
      match prm with
      | some p => p
      | none => { countNew with Search := "*" }
    match TargetName target s.Target with
    | (_, some e) => (.err e, { s with counters := s.counters.incCountedFailed }, [])
    | (trgt, none) =>
      match o.PreHookFunc with
      | some (some e) => (.err e, { s with counters := s.counters.incCountedFailed }, [.preHook])
      | preOutcome =>
        let evs := if preOutcome.isSome then [Ev.preHook] else []
        let evs := evs ++ [Ev.globCall trgt finalParam.Search]
        match env.glob with
        | .error _ =>
          (.err (.failedTo "count"), { s with counters := s.counters.incCountedFailed }, evs)
        | .ok ms =>
          match o.PostHookFunc with
          | some (some e) =>
            (.err e, { s with counters := s.counters.incCountedFailed }, evs ++ [.postHook])
          | postOutcome =>
            let evs := evs ++ if postOutcome.isSome then [Ev.postHook] else []
            (.ok (ms.length : Int), { s with counters := s.counters.incCounted }, evs)

/-- `File.Delete` (src/file/types.go lines 171-282). When `os.Remove` reports
the file missing the source returns nil at once (line 245), skipping the
post-hook, the log and the counter increment. -/
def File.Delete (s : File) (env : FileEnv) (id target : String) (prm : Option DeletePrm)
    (opts : List OptFn) : Res Unit × File × List Ev :=
  if id = "" then
    (.err (.required "id"), { s with counters := s.counters.incDeletedFailed }, [])
  else
    match applyOptions opts NewOptions with
    | .error e => (.err e, { s with counters := s.counters.incDeletedFailed }, [])
    | .ok o =>
      let _finalParam : DeletePrm :=
        match prm with
        | some p => p
        | none => {}
      match TargetName target s.Target with
      | (_, some e) => (.err e, { s with counters := s.counters.incDeletedFailed }, [])
      | (trgt, none) =>
        match o.PreHookFunc with
        | some (some e) => (.err e, { s with counters := s.counters.incDeletedFailed }, [.preHook])
        | preOutcome =>
          let evs := if preOutcome.isSome then [Ev.preHook] else []
          let evs := evs ++ [Ev.osRemove trgt]
          if fileExists s.files trgt then
            if env.removeOtherErr then
              (.err (.failedTo "delete"), { s with counters := s.counters.incDeletedFailed }, evs)
            else
              let s := { s with files := removeFile s.files trgt }
              match o.PostHookFunc with
              | some (some e) =>
                (.err e, { s with counters := s.counters.incDeletedFailed }, evs ++ [.postHook])
              | postOutcome =>
                let evs := evs ++ if postOutcome.isSome then [Ev.postHook] else []
                (.ok (), { s with counters := s.counters.incDeleted }, evs)
          else
            -- os.Remove yields ErrNotExist: `return nil` with no further effect.
            (.ok (), s, evs)

/-- `File.Retrieve` (src/file/types.go lines 285-407). Note line 342: the
failed target resolution is traced against `GetCounterDeletedFailed`. -/
def File.Retrieve (s : File) (env : FileEnv) (id target : String) (prm : Option RetrievePrm)
    (opts : List OptFn) : Res Json × File × List Ev :=
  if id = "" then
    (.err (.required "id"), { s with counters := s.counters.incRetrievedFailed }, [])
  else
    match applyOptions opts NewOptions with
    | .error e => (.err e, { s with counters := s.counters.incRetrievedFailed }, [])
    | .ok o =>
      let _finalParam : RetrievePrm :=
        match prm with
        | some p => p
        | none => {}
      match TargetName target s.Target with
      | (_, some e) => (.err e, { s with counters := s.counters.incDeletedFailed }, [])
      | (trgt, none) =>
        match o.PreHookFunc with
        | some (some e) =>
          (.err e, { s with counters := s.counters.incRetrievedFailed }, [.preHook])
        | preOutcome =>
          let evs := if preOutcome.isSome then [Ev.preHook] else []
          let evs := evs ++ [Ev.osOpen trgt]
          match lookupFile s.files trgt with
          | none =>
            (.err (.notFound "retrieve"), { s with counters := s.counters.incRetrievedFailed }, evs)
          | some content =>
            if env.openOtherErr then
              (.err (.failedTo "retrieve"), { s with counters := s.counters.incRetrievedFailed }, evs)
            else
              match sharedDecode content with
              | .error e =>
                (.err e, { s with counters := s.counters.incRetrievedFailed }, evs)
              | .ok v =>
                match o.PostHookFunc with
                | some (some e) =>
                  (.err e, { s with counters := s.counters.incRetrievedFailed }, evs ++ [.postHook])
                | postOutcome =>
                  let evs := evs ++ if postOutcome.isSome then [Ev.postHook] else []
                  (.ok v, { s with counters := s.counters.incRetrieved }, evs)

/-- `File.List` (src/file/types.go lines 415-521). -/
def File.List (s : File) (env : FileEnv) (target : String) (prm : Option ListPrm)
    (opts : List OptFn) : Res Json × File × List Ev :=
  match applyOptions opts NewOptions with
  | .error e => (.err e, { s with counters := s.counters.incListedFailed }, [])
  | .ok o =>
    let finalParam : ListPrm :=
      match prm with
      | some p => p
      | none => { listNew with Search := "*" }
    match TargetName target s.Target with
    | (_, some e) => (.err e, { s with counters := s.counters.incListedFailed }, [])
    | (trgt, none) =>
      match o.PreHookFunc with
      | some (some e) => (.err e, { s with counters := s.counters.incListedFailed }, [.preHook])
      | preOutcome =>
        let evs := if preOutcome.isSome then [Ev.preHook] else []
        let evs := evs ++ [Ev.globCall trgt finalParam.Search]
        match env.glob with
        | .error _ =>
          (.err (.failedTo "list"), { s with counters := s.counters.incListedFailed }, evs)
        | .ok ms =>
          match ParseToStruct (keysJson ms) with
          | .error e => (.err e, { s with counters := s.counters.incListedFailed }, evs)
          | .ok sink =>
            match o.PostHookFunc with
            | some (some e) =>
              (.err e, { s with counters := s.counters.incListedFailed }, evs ++ [.postHook])
            | postOutcome =>
              let evs := evs ++ if postOutcome.isSome then [Ev.postHook] else []
              (.ok sink, { s with counters := s.counters.incListed }, evs)

/-- The `CreateAny` pre-block of `File.Create` (src/file/types.go lines
558-580): stat the parent directory and create it when missing, then stat
the target file and touch it when missing. Returns the resulting directory
list, file list, and OS events. -/
def fileCreateAnyBlock (dirs : List String) (files : List (String × String))
    (target : String) (slot : Option CreateAny) :
    List String × List (String × String) × Evs :=
  match slot with
  | some cA =>
    if cA.CreateIfNotExist then
      let d := dirOf target
      let dirs2 := if d ∈ dirs then dirs else d :: dirs
      let evs := if d ∈ dirs then [Ev.osStat d] else [Ev.osStat d, Ev.osMkdirAll d]
      if fileExists files target then (dirs2, files, evs ++ [Ev.osStat target])
      else
        (dirs2, setFile files target "", evs ++ [Ev.osStat target, Ev.osCreate target])
    else (dirs, files, [])
  | none => (dirs, files, [])

/-- `File.Create` (src/file/types.go lines 529-658). The `prm.Any` type
assertion on line 559 runs before the nil check of the parameter-defaulting
step (line 593): a nil `prm` is dereferenced and the call panics. When the
assertion finds a `*CreateAny` asking for creation-if-missing, the directory
and the file are created (lines 560-579) before the pre-hook runs. -/
def File.Create (s : File) (env : FileEnv) (id target : String) (v : Json)
    (prm : Option CreatePrm) (opts : OptFns) : Res String × File × Evs :=
  match applyOptions opts NewOptions with
  | .error e => (.err e, { s with counters := s.counters.incCreatedFailed }, [])
  | .ok o =>
    match prm with
    | none =>
      (.panicked "invalid memory address or nil pointer dereference", s, [])
    | some p =>
      let dirs2 := (fileCreateAnyBlock s.dirs s.files target p.AnySlot).1
      let files2 := (fileCreateAnyBlock s.dirs s.files target p.AnySlot).2.1
      let evs := (fileCreateAnyBlock s.dirs s.files target p.AnySlot).2.2
      let _finalParam : CreatePrm := p
      match TargetName target s.Target with
      | (_, some e) =>
        (.err e, { s with
          dirs := dirs2, files := files2,
          counters := s.counters.incCreatedFailed }, evs)
      | (trgt, none) =>
        match o.PreHookFunc with
        | some (some e) =>
          (.err e, { s with
            dirs := dirs2, files := files2,
            counters := s.counters.incCreatedFailed }, evs ++ [.preHook])
        | preOutcome =>
          let evs := evs ++ if preOutcome.isSome then [Ev.preHook] else []
          let evs := evs ++ [Ev.osCreate trgt]
          if env.createFails then
            (.err (.failedTo "create"), { s with
              dirs := dirs2, files := files2,
              counters := s.counters.incCreatedFailed }, evs)
          else
            let files3 := setFile files2 trgt (sharedEncode v)
            match o.PostHookFunc with
            | some (some e) =>
              (.err e, { s with
                dirs := dirs2, files := files3,
                counters := s.counters.incCreatedFailed }, evs ++ [.postHook])
            | postOutcome =>
              let evs := evs ++ if postOutcome.isSome then [Ev.postHook] else []
              (.ok id, { s with
                dirs := dirs2, files := files3,
                counters := s.counters.incCreated }, evs)

/-- `File.Update` (src/file/types.go lines 663-777). -/
def File.Update (s : File) (env : FileEnv) (id target : String) (v : Json)
    (prm : Option UpdatePrm) (opts : OptFns) : Res Unit × File × Evs :=
  if id = "" then
    (.err (.required "id"), { s with counters := s.counters.incUpdatedFailed }, [])
  else
    match applyOptions opts NewOptions with
    | .error e => (.err e, { s with counters := s.counters.incUpdatedFailed }, [])
    | .ok o =>
      let _finalParam : UpdatePrm :=
        match prm with
        | some p => p
        | none => { updateNew with TTL := 0 }
      match TargetName target s.Target with
      | (_, some e) => (.err e, { s with counters := s.counters.incUpdatedFailed }, [])
      | (trgt, none) =>
        match o.PreHookFunc with
        | some (some e) =>
          (.err e, { s with counters := s.counters.incUpdatedFailed }, [.preHook])
        | preOutcome =>
          let evs := if preOutcome.isSome then [Ev.preHook] else []
          let evs := evs ++ [Ev.osCreate trgt]
          if env.createFails then
            (.err (.failedTo "update"), { s with counters := s.counters.incUpdatedFailed }, evs)
          else
            let s := { s with files := setFile s.files trgt (sharedEncode v) }
            match o.PostHookFunc with
            | some (some e) =>
              (.err e, { s with counters := s.counters.incUpdatedFailed }, evs ++ [.postHook])
            | postOutcome =>
              let evs := evs ++ if postOutcome.isSome then [Ev.postHook] else []
              (.ok (), { s with counters := s.counters.incUpdated }, evs)

/-- `strings.TrimSuffix(s, ",")` on a character list. -/
def trimLastComma (l : List Char) : List Char :=
  match l.reverse with
  | ',' :: t => t.reverse
  | _ => l

/-- The `{"items":[...]}` envelope `Memory.List` builds (src/memory/memory.go
lines 411-424): each stored byte slice followed by a comma, the trailing
comma trimmed, wrapped in the envelope. -/
def itemsEnvelope (vals : List String) : String :=
  String.mk (('{' :: '"' :: 'i' :: 't' :: 'e' :: 'm' :: 's' :: '"' :: ':' :: '[' :: []) ++
    trimLastComma (vals.foldl (fun acc v => acc ++ v.data ++ [',']) []) ++ (']' :: '}' :: []))

/-- The Memory adapter (src/memory/memory.go lines 38-51): the embedded
`storage.Storage` counters, the static `Target`, and the `sync.Map` client
keyed by id with JSON-marshalled bytes as values. -/
structure Memory where
  Target : String
  counters : Counters
  store : List (String × String)
deriving DecidableEq

/-- `sync.Map.Store`: overwrite the entry for a key. -/
def storePut (store : List (String × String)) (k v : String) : List (String × String) :=
  (k, v) :: store.filter (fun q => q.1 ≠ k)

/-- `sync.Map.Load`. -/
def storeGet (store : List (String × String)) (k : String) : Option String :=
  (store.find? (fun q => q.1 = k)).map (fun q => q.2)

/-- `sync.Map.Delete`. -/
def storeDel (store : List (String × String)) (k : String) : List (String × String) :=
  store.filter (fun q => q.1 ≠ k)

/-- `Memory.Count` (src/memory/memory.go lines 58-145): walk the map and
count entries; the `Search` filter is ignored. -/
def Memory.Count (s : Memory) (target : String) (prm : Option CountPrm)
    (opts : OptFns) : Res Int × Memory × Evs :=
  match applyOptions opts NewOptions with
  | .error e => (.err e, { s with counters := s.counters.incCountedFailed }, [])
  | .ok o =>
    let _finalParam : CountPrm :=
      match prm with
      | some p => p
      | none => { countNew with Search := "*" }
    match o.PreHookFunc with
    | some (some e) => (.err e, { s with counters := s.counters.incCountedFailed }, [.preHook])
    | preOutcome =>
      let evs := if preOutcome.isSome then [Ev.preHook] else []
      let evs := evs ++ [Ev.memRange]
      match o.PostHookFunc with
      | some (some e) =>
        (.err e, { s with counters := s.counters.incCountedFailed }, evs ++ [.postHook])
      | postOutcome =>
        let evs := evs ++ if postOutcome.isSome then [Ev.postHook] else []
        (.ok (s.store.length : Int), { s with counters := s.counters.incCounted }, evs)

/-- `Memory.Delete` (src/memory/memory.go lines 148-236). -/
def Memory.Delete (s : Memory) (id target : String) (prm : Option DeletePrm)
    (opts : OptFns) : Res Unit × Memory × Evs :=
  if id = "" then
    (.err (.required "id"), { s with counters := s.counters.incDeletedFailed }, [])
  else
    match applyOptions opts NewOptions with
    | .error e => (.err e, { s with counters := s.counters.incDeletedFailed }, [])
    | .ok o =>
      let _finalParam : DeletePrm :=
        match prm with
        | some p => p
        | none => {}
      match o.PreHookFunc with
      | some (some e) => (.err e, { s with counters := s.counters.incDeletedFailed }, [.preHook])
      | preOutcome =>
        let evs := if preOutcome.isSome then [Ev.preHook] else []
        let evs := evs ++ [Ev.memDelete id]
        let s := { s with store := storeDel s.store id }
        match o.PostHookFunc with
        | some (some e) =>
          (.err e, { s with counters := s.counters.incDeletedFailed }, evs ++ [.postHook])
        | postOutcome =>
          let evs := evs ++ if postOutcome.isSome then [Ev.postHook] else []
          (.ok (), { s with counters := s.counters.incDeleted }, evs)

/-- `Memory.Retrieve` (src/memory/memory.go lines 239-348). -/
def Memory.Retrieve (s : Memory) (id target : String) (prm : Option RetrievePrm)
    (opts : OptFns) : Res Json × Memory × Evs :=
  if id = "" then
    (.err (.required "id"), { s with counters := s.counters.incRetrievedFailed }, [])
  else
    match applyOptions opts NewOptions with
    | .error e => (.err e, { s with counters := s.counters.incRetrievedFailed }, [])
    | .ok o =>
      let _finalParam : RetrievePrm :=
        match prm with
        | some p => p
        | none => {}
      match o.PreHookFunc with
      | some (some e) =>
        (.err e, { s with counters := s.counters.incRetrievedFailed }, [.preHook])
      | preOutcome =>
        let evs := if preOutcome.isSome then [Ev.preHook] else []
        let evs := evs ++ [Ev.memLoad id]
        match storeGet s.store id with
        | none =>
          (.err (.notFound "retrieve"), { s with counters := s.counters.incRetrievedFailed }, evs)
        | some bytes =>
          match sharedUnmarshal bytes with
          | .error e =>
            (.err e, { s with counters := s.counters.incRetrievedFailed }, evs)
          | .ok v =>
            match o.PostHookFunc with
            | some (some e) =>
              (.err e, { s with counters := s.counters.incRetrievedFailed }, evs ++ [.postHook])
            | postOutcome =>
              let evs := evs ++ if postOutcome.isSome then [Ev.postHook] else []
              (.ok v, { s with counters := s.counters.incRetrieved }, evs)

/-- `Memory.List` (src/memory/memory.go lines 356-454): concatenate the
stored byte slices into the `{"items":[...]}` envelope and unmarshal it into
the sink. -/
def Memory.List (s : Memory) (target : String) (prm : Option ListPrm)
    (opts : OptFns) : Res Json × Memory × Evs :=
  match applyOptions opts NewOptions with
  | .error e => (.err e, { s with counters := s.counters.incListedFailed }, [])
  | .ok o =>
    let _finalParam : ListPrm :=
      match prm with
      | some p => p
      | none => { listNew with Search := "*" }
    match o.PreHookFunc with
    | some (some e) => (.err e, { s with counters := s.counters.incListedFailed }, [.preHook])
    | preOutcome =>
      let evs := if preOutcome.isSome then [Ev.preHook] else []
      let evs := evs ++ [Ev.memRange]
      match sharedUnmarshal (itemsEnvelope (s.store.map (fun q => q.2))) with
      | .error e => (.err e, { s with counters := s.counters.incListedFailed }, evs)
      | .ok sink =>
        match o.PostHookFunc with
        | some (some e) =>
          (.err e, { s with counters := s.counters.incListedFailed }, evs ++ [.postHook])
        | postOutcome =>
          let evs := evs ++ if postOutcome.isSome then [Ev.postHook] else []
          (.ok sink, { s with counters := s.counters.incListed }, evs)

/-- `Memory.Create` (src/memory/memory.go lines 460-545): marshal the value
and store the bytes under the id (no id validation). -/
def Memory.Create (s : Memory) (id target : String) (v : Json)
    (prm : Option CreatePrm) (opts : OptFns) : Res String × Memory × Evs :=
  match applyOptions opts NewOptions with
  | .error e => (.err e, { s with counters := s.counters.incCreatedFailed }, [])
  | .ok o =>
    let _finalParam : CreatePrm :=
      match prm with
      | some p => p
      | none => { createNew with TTL := 0 }
    match o.PreHookFunc with
    | some (some e) => (.err e, { s with counters := s.counters.incCreatedFailed }, [.preHook])
    | preOutcome =>
      let evs := if preOutcome.isSome then [Ev.preHook] else []
      let bytes := sharedMarshal v
      let evs := evs ++ [Ev.memStore id bytes]
      let s := { s with store := storePut s.store id bytes }
      match o.PostHookFunc with
      | some (some e) =>
        (.err e, { s with counters := s.counters.incCreatedFailed }, evs ++ [.postHook])
      | postOutcome =>
        let evs := evs ++ if postOutcome.isSome then [Ev.postHook] else []
        (.ok id, { s with counters := s.counters.incCreated }, evs)

/-- `Memory.Update` (src/memory/memory.go lines 550-644). -/
def Memory.Update (s : Memory) (id target : String) (v : Json)
    (prm : Option UpdatePrm) (opts : OptFns) : Res Unit × Memory × Evs :=
  if id = "" then
    (.err (.required "id"), { s with counters := s.counters.incUpdatedFailed }, [])
  else
    match applyOptions opts NewOptions with
    | .error e => (.err e, { s with counters := s.counters.incUpdatedFailed }, [])
    | .ok o =>
      let _finalParam : UpdatePrm :=
        match prm with
        | some p => p
        | none => { updateNew with TTL := 0 }
      match o.PreHookFunc with
      | some (some e) =>
        (.err e, { s with counters := s.counters.incUpdatedFailed }, [.preHook])
      | preOutcome =>
        let evs := if preOutcome.isSome then [Ev.preHook] else []
        let bytes := sharedMarshal v
        let evs := evs ++ [Ev.memStore id bytes]
        let s := { s with store := storePut s.store id bytes }
        match o.PostHookFunc with
        | some (some e) =>
          (.err e, { s with counters := s.counters.incUpdatedFailed }, evs ++ [.postHook])
        | postOutcome =>
          let evs := evs ++ if postOutcome.isSome then [Ev.postHook] else []
          (.ok (), { s with counters := s.counters.incUpdated }, evs)

/-- The Redis adapter (src/unnamed/part_003 lines 43-60): the embedded
`storage.Storage` counters and the static `Target` (unused by Redis). The
key space lives in the external Redis server, whose responses come from
`RedisEnv`. -/
structure Redis where
  Target : String
  counters : Counters
deriving DecidableEq

/-- Outcome of a `GET`. -/
inductive RedisGetRes where
  | val (s : String)
  | nilRes
  | errRes
deriving DecidableEq

/-- Responses of the external Redis server for the driver calls one
operation makes. -/
structure RedisEnv where
  keysRes : Except Unit (List String)
  getRes : RedisGetRes
  setErr : Bool
  delErr : Bool
  scanRes : Except Unit (List String)

/-- `Redis.Count` (src/unnamed/part_003 lines 67-160): `KEYS` with the
`Search` pattern; the fresh parameter defaults `Search` to `"*"` and a
caller-supplied parameter replaces it wholesale. -/
def Redis.Count (s : Redis) (env : RedisEnv) (target : String) (prm : Option CountPrm)
    (opts : OptFns) : Res Int × Redis × Evs :=
  match applyOptions opts NewOptions with
  | .error e => (.err e, { s with counters := s.counters.incCountedFailed }, [])
  | .ok o =>
    let finalParam : CountPrm :=
      match prm with
      | some p => p
      | none => { countNew with Search := "*" }
    match o.PreHookFunc with
    | some (some e) => (.err e, { s with counters := s.counters.incCountedFailed }, [.preHook])
    | preOutcome =>
      let evs := if preOutcome.isSome then [Ev.preHook] else []
      let evs := evs ++ [Ev.redisKeys finalParam.Search]
      match env.keysRes with
      | .error _ =>
        (.err (.failedTo "count"), { s with counters := s.counters.incCountedFailed }, evs)
      | .ok keys =>
        match o.PostHookFunc with
        | some (some e) =>
          (.err e, { s with counters := s.counters.incCountedFailed }, evs ++ [.postHook])
        | postOutcome =>
          let evs := evs ++ if postOutcome.isSome then [Ev.postHook] else []
          (.ok (keys.length : Int), { s with counters := s.counters.incCounted }, evs)

/-- `Redis.Delete` (src/unnamed/part_003 lines 163-260). -/
def Redis.Delete (s : Redis) (env : RedisEnv) (id target : String) (prm : Option DeletePrm)
    (opts : OptFns) : Res Unit × Redis × Evs :=
  if id = "" then
    (.err (.required "id"), { s with counters := s.counters.incDeletedFailed }, [])
  else
    match applyOptions opts NewOptions with
    | .error e => (.err e, { s with counters := s.counters.incDeletedFailed }, [])
    | .ok o =>
      let _finalParam : DeletePrm :=
        match prm with
        | some p => p
        | none => {}
      match o.PreHookFunc with
      | some (some e) => (.err e, { s with counters := s.counters.incDeletedFailed }, [.preHook])
      | preOutcome =>
        let evs := if preOutcome.isSome then [Ev.preHook] else []
        let evs := evs ++ [Ev.redisDel id]
        if env.delErr then
          (.err (.failedTo "delete"), { s with counters := s.counters.incDeletedFailed }, evs)
        else
          match o.PostHookFunc with
          | some (some e) =>
            (.err e, { s with counters := s.counters.incDeletedFailed }, evs ++ [.postHook])
          | postOutcome =>
            let evs := evs ++ if postOutcome.isSome then [Ev.postHook] else []
            (.ok (), { s with counters := s.counters.incDeleted }, evs)

/-- `Redis.Retrieve` (src/unnamed/part_003 lines 263-375): `GET` by id;
`redis.Nil` becomes an HTTP-404 error; a non-empty payload is unmarshalled
into the sink (an empty payload leaves the sink at its zero value, modelled
as `Json.null`). -/
def Redis.Retrieve (s : Redis) (env : RedisEnv) (id target : String) (prm : Option RetrievePrm)
    (opts : OptFns) : Res Json × Redis × Evs :=
  if id = "" then
    (.err (.required "id"), { s with counters := s.counters.incRetrievedFailed }, [])
  else
    match applyOptions opts NewOptions with
    | .error e => (.err e, { s with counters := s.counters.incRetrievedFailed }, [])
    | .ok o =>
      let _finalParam : RetrievePrm :=
        match prm with
        | some p => p
        | none => {}
      match o.PreHookFunc with
      | some (some e) =>
        (.err e, { s with counters := s.counters.incRetrievedFailed }, [.preHook])
      | preOutcome =>
        let evs := if preOutcome.isSome then [Ev.preHook] else []
        let evs := evs ++ [Ev.redisGet id]
        match env.getRes with
        | .nilRes =>
          (.err (.httpErr 404), { s with counters := s.counters.incRetrievedFailed }, evs)
        | .errRes =>
          (.err (.failedTo "retrieve"), { s with counters := s.counters.incRetrievedFailed }, evs)
        | .val objStr =>
          match (if objStr ≠ "" then sharedUnmarshal objStr else Except.ok Json.null) with
          | .error e =>
            (.err e, { s with counters := s.counters.incRetrievedFailed }, evs)
          | .ok v =>
            match o.PostHookFunc with
            | some (some e) =>
              (.err e, { s with counters := s.counters.incRetrievedFailed }, evs ++ [.postHook])
            | postOutcome =>
              let evs := evs ++ if postOutcome.isSome then [Ev.postHook] else []
              (.ok v, { s with counters := s.counters.incRetrieved }, evs)

/-- `Redis.List` (src/unnamed/part_003 lines 383-484): `SCAN` with the
`Search` pattern, producing the list of keys into the sink. -/
def Redis.List (s : Redis) (env : RedisEnv) (target : String) (prm : Option ListPrm)
    (opts : OptFns) : Res Json × Redis × Evs :=
  match applyOptions opts NewOptions with
  | .error e => (.err e, { s with counters := s.counters.incListedFailed }, [])
  | .ok o =>
    let finalParam : ListPrm :=
      match prm with
      | some p => p
      | none => { listNew with Search := "*" }
    match o.PreHookFunc with
    | some (some e) => (.err e, { s with counters := s.counters.incListedFailed }, [.preHook])
    | preOutcome =>
      let evs := if preOutcome.isSome then [Ev.preHook] else []
      let evs := evs ++ [Ev.redisScan finalParam.Search]
      match env.scanRes with
      | .error _ =>
        (.err (.failedTo "list"), { s with counters := s.counters.incListedFailed }, evs)
      | .ok keys =>
        match ParseToStruct (keysJson keys) with
        | .error e => (.err e, { s with counters := s.counters.incListedFailed }, evs)
        | .ok sink =>
          match o.PostHookFunc with
          | some (some e) =>
            (.err e, { s with counters := s.counters.incListedFailed }, evs ++ [.postHook])
          | postOutcome =>
            let evs := evs ++ if postOutcome.isSome then [Ev.postHook] else []
            (.ok sink, { s with counters := s.counters.incListed }, evs)

/-- `Redis.Create` (src/unnamed/part_003 lines 490-585): `SET id` to the
marshalled value honouring the TTL. -/
def Redis.Create (s : Redis) (env : RedisEnv) (id target : String) (v : Json)
    (prm : Option CreatePrm) (opts : OptFns) : Res String × Redis × Evs :=
  match applyOptions opts NewOptions with
  | .error e => (.err e, { s with counters := s.counters.incCreatedFailed }, [])
  | .ok o =>
    let _finalParam : CreatePrm :=
      match prm with
      | some p => p
      | none => { createNew with TTL := 0 }
    match o.PreHookFunc with
    | some (some e) => (.err e, { s with counters := s.counters.incCreatedFailed }, [.preHook])
    | preOutcome =>
      let evs := if preOutcome.isSome then [Ev.preHook] else []
      let bytes := sharedMarshal v
      let evs := evs ++ [Ev.redisSet id bytes]
      if env.setErr then
        (.err (.failedTo "create"), { s with counters := s.counters.incCreatedFailed }, evs)
      else
        match o.PostHookFunc with
        | some (some e) =>
          (.err e, { s with counters := s.counters.incCreatedFailed }, evs ++ [.postHook])
        | postOutcome =>
          let evs := evs ++ if postOutcome.isSome then [Ev.postHook] else []
          (.ok id, { s with counters := s.counters.incCreated }, evs)

/-- `Redis.Update` (src/unnamed/part_003 lines 590-693). Note line 665: a
failed `SET` is traced against `GetCounterCountedFailed` — the counted-failed
counter, not updated-failed. -/
def Redis.Update (s : Redis) (env : RedisEnv) (id target : String) (v : Json)
    (prm : Option UpdatePrm) (opts : OptFns) : Res Unit × Redis × Evs :=
  if id = "" then
    (.err (.required "id"), { s with counters := s.counters.incUpdatedFailed }, [])
  else
    match applyOptions opts NewOptions with
    | .error e => (.err e, { s with counters := s.counters.incUpdatedFailed }, [])
    | .ok o =>
      let _finalParam : UpdatePrm :=
        match prm with
        | some p => p
        | none => { updateNew with TTL := 0 }
      match o.PreHookFunc with
      | some (some e) =>
        (.err e, { s with counters := s.counters.incUpdatedFailed }, [.preHook])
      | preOutcome =>
        let evs := if preOutcome.isSome then [Ev.preHook] else []
        let bytes := sharedMarshal v
        let evs := evs ++ [Ev.redisSet id bytes]
        if env.setErr then
          (.err (.failedTo "update"), { s with counters := s.counters.incCountedFailed }, evs)
        else
          match o.PostHookFunc with
          | some (some e) =>
            (.err e, { s with counters := s.counters.incUpdatedFailed }, evs ++ [.postHook])
          | postOutcome =>
            let evs := evs ++ if postOutcome.isSome then [Ev.postHook] else []
            (.ok (), { s with counters := s.counters.incUpdated }, evs)

/-- The Insightly adapter (src/status/status.go lines 69-89): the embedded
`storage.Storage` counters, the static `Target`, the HTTP endpoint and API
key. -/
structure Insightly where
  Target : String
  Endpoint : String
  APIKey : String
  counters : Counters
deriving DecidableEq

/-- Response of the Insightly HTTP endpoint to the Create POST: an error or
the created contact id. -/
structure InsightlyEnv where
  postRes : Except Unit Int

/-- `Insightly.Count` (src/status/status.go lines 96-115): traced
not-implemented error against the counted-failed counter. -/
def Insightly.Count (s : Insightly) (target : String) (prm : Option CountPrm)
    (opts : OptFns) : Res Int × Insightly × Evs :=
  (.err (.httpErr 501), { s with counters := s.counters.incCountedFailed }, [])

/-- `Insightly.Delete` (src/status/status.go lines 118-137): no id
validation; traced not-implemented error against the deleted-failed
counter. -/
def Insightly.Delete (s : Insightly) (id target : String) (prm : Option DeletePrm)
    (opts : OptFns) : Res Unit × Insightly × Evs :=
  (.err (.httpErr 501), { s with counters := s.counters.incDeletedFailed }, [])

/-- `Insightly.Retrieve` (src/status/status.go lines 140-168): empty id is
rejected with the retrieved-failed counter; otherwise the not-implemented
error is traced against `GetCounterRetrieved` — the retrieved success
counter (line 166). -/
def Insightly.Retrieve (s : Insightly) (id target : String) (prm : Option RetrievePrm)
    (opts : OptFns) : Res Json × Insightly × Evs :=
  if id = "" then
    (.err (.required "id"), { s with counters := s.counters.incRetrievedFailed }, [])
  else
    (.err (.httpErr 501), { s with counters := s.counters.incRetrieved }, [])

/-- `Insightly.List` (src/status/status.go lines 177-196): the
not-implemented error is traced against `GetCounterListed` — the listed
success counter (line 194). -/
def Insightly.List (s : Insightly) (target : String) (prm : Option ListPrm)
    (opts : OptFns) : Res Json × Insightly × Evs :=
  (.err (.httpErr 501), { s with counters := s.counters.incListed }, [])

/-- `Insightly.Update` (src/status/status.go lines 318-346): empty id is
rejected with the updated-failed counter; otherwise the not-implemented
error is traced against `GetCounterUpdated` — the updated success counter
(line 344). -/
def Insightly.Update (s : Insightly) (id target : String) (v : Json)
    (prm : Option UpdatePrm) (opts : OptFns) : Res Unit × Insightly × Evs :=
  if id = "" then
    (.err (.required "id"), { s with counters := s.counters.incUpdatedFailed }, [])
  else
    (.err (.httpErr 501), { s with counters := s.counters.incUpdated }, [])

/-- `Insightly.Create` (src/status/status.go lines 202-315): id required,
options, parameters, target resolution, pre-hook, POST to the endpoint,
post-hook, created counter. -/
def Insightly.Create (s : Insightly) (env : InsightlyEnv) (id target : String) (v : Json)
    (prm : Option CreatePrm) (opts : OptFns) : Res String × Insightly × Evs :=
  if id = "" then
    (.err (.required "id"), { s with counters := s.counters.incCreatedFailed }, [])
  else
    match applyOptions opts NewOptions with
    | .error e => (.err e, { s with counters := s.counters.incCreatedFailed }, [])
    | .ok o =>
      let _finalParam : CreatePrm :=
        match prm with
        | some p => p
        | none => createNew
      match TargetName target s.Target with
      | (_, some e) => (.err e, { s with counters := s.counters.incCreatedFailed }, [])
      | (trgt, none) =>
        match o.PreHookFunc with
        | some (some e) =>
          (.err e, { s with counters := s.counters.incCreatedFailed }, [.preHook])
        | preOutcome =>
          let evs := if preOutcome.isSome then [Ev.preHook] else []
          let evs := evs ++ [Ev.httpPost s.Endpoint]
          match env.postRes with
          | .error _ =>
            (.err (.failedTo "post"), { s with counters := s.counters.incCreatedFailed }, evs)
          | .ok contactId =>
            match o.PostHookFunc with
            | some (some e) =>
              (.err e, { s with counters := s.counters.incCreatedFailed }, evs ++ [.postHook])
            | postOutcome =>
              let evs := evs ++ if postOutcome.isSome then [Ev.postHook] else []
              (.ok (String.mk (intChars contactId)),
                { s with counters := s.counters.incCreated }, evs)

/-- The S3 adapter's state (src/s3/s3.go lines 49-72): the bucket, the
optional static target and the embedded counters. -/
structure S3 where
  Bucket : String
  Target : String
  counters : Counters
deriving DecidableEq

/-- Responses of the external S3 service for the driver calls one operation
makes: object listing, `GetObject` body, upload failure, delete failure. -/
structure S3Env where
  listRes : Except Unit (List String)
  getRes : Except Unit String
  putErr : Bool
  delErr : Bool

/-- `S3.Count` (src/s3/s3.go lines 79-175): options, defaulted parameter,
pre-hook, `ListObjectsV2` page walk counting the bucket's keys, post-hook,
counted counter. No target resolution: S3's `Count` ignores the target. -/
def S3.Count (s : S3) (env : S3Env) (target : String) (prm : Option CountPrm)
    (opts : OptFns) : Res Int × S3 × Evs :=
  match applyOptions opts NewOptions with
  | .error e => (.err e, { s with counters := s.counters.incCountedFailed }, [])
  | .ok o =>
    let _finalParam : CountPrm :=
      match prm with
      | some p => p
      | none => { countNew with Search := "*" }
    match o.PreHookFunc with
    | some (some e) => (.err e, { s with counters := s.counters.incCountedFailed }, [.preHook])
    | preOutcome =>
      let evs := if preOutcome.isSome then [Ev.preHook] else []
      let evs := evs ++ [Ev.s3ListObjects]
      match env.listRes with
      | .error _ =>
        (.err (.failedTo "count"), { s with counters := s.counters.incCountedFailed }, evs)
      | .ok keys =>
        match o.PostHookFunc with
        | some (some e) =>
          (.err e, { s with counters := s.counters.incCountedFailed }, evs ++ [.postHook])
        | postOutcome =>
          let evs := evs ++ if postOutcome.isSome then [Ev.postHook] else []
          (.ok (keys.length : Int), { s with counters := s.counters.incCounted }, evs)

/-- `S3.Delete` (src/s3/s3.go lines 178-289): id required, options,
parameter, target resolution, pre-hook, `DeleteObject`, post-hook, deleted
counter. -/
def S3.Delete (s : S3) (env : S3Env) (id target : String) (prm : Option DeletePrm)
    (opts : OptFns) : Res Unit × S3 × Evs :=
  if id = "" then
    (.err (.required "id"), { s with counters := s.counters.incDeletedFailed }, [])
  else
    match applyOptions opts NewOptions with
    | .error e => (.err e, { s with counters := s.counters.incDeletedFailed }, [])
    | .ok o =>
      let _finalParam : DeletePrm :=
        match prm with
        | some p => p
        | none => {}
      match TargetName target s.Target with
      | (_, some e) => (.err e, { s with counters := s.counters.incDeletedFailed }, [])
      | (trgt, none) =>
        match o.PreHookFunc with
        | some (some e) =>
          (.err e, { s with counters := s.counters.incDeletedFailed }, [.preHook])
        | preOutcome =>
          let evs := if preOutcome.isSome then [Ev.preHook] else []
          let evs := evs ++ [Ev.s3DeleteObject trgt]
          if env.delErr then
            (.err (.failedTo "delete"), { s with counters := s.counters.incDeletedFailed }, evs)
          else
            match o.PostHookFunc with
            | some (some e) =>
              (.err e, { s with counters := s.counters.incDeletedFailed }, evs ++ [.postHook])
            | postOutcome =>
              let evs := evs ++ if postOutcome.isSome then [Ev.postHook] else []
              (.ok (), { s with counters := s.counters.incDeleted }, evs)

/-- `S3.Retrieve` (src/s3/s3.go lines 292-419). Note line 349: the failed
target resolution is traced against `GetCounterDeletedFailed`, not the
retrieve-failed counter. -/
def S3.Retrieve (s : S3) (env : S3Env) (id target : String) (prm : Option RetrievePrm)
    (opts : OptFns) : Res Json × S3 × Evs :=
  if id = "" then
    (.err (.required "id"), { s with counters := s.counters.incRetrievedFailed }, [])
  else
    match applyOptions opts NewOptions with
    | .error e => (.err e, { s with counters := s.counters.incRetrievedFailed }, [])
    | .ok o =>
      let _finalParam : RetrievePrm :=
        match prm with
        | some p => p
        | none => {}
      match TargetName target s.Target with
      | (_, some e) => (.err e, { s with counters := s.counters.incDeletedFailed }, [])
      | (trgt, none) =>
        match o.PreHookFunc with
        | some (some e) =>
          (.err e, { s with counters := s.counters.incRetrievedFailed }, [.preHook])
        | preOutcome =>
          let evs := if preOutcome.isSome then [Ev.preHook] else []
          let evs := evs ++ [Ev.s3GetObject trgt]
          match env.getRes with
          | .error _ =>
            (.err (.failedTo "retrieve"),
              { s with counters := s.counters.incRetrievedFailed }, evs)
          | .ok data =>
            match sharedUnmarshal data with
            | .error e =>
              (.err e, { s with counters := s.counters.incRetrievedFailed }, evs)
            | .ok v =>
              match o.PostHookFunc with
              | some (some e) =>
                (.err e, { s with counters := s.counters.incRetrievedFailed }, evs ++ [.postHook])
              | postOutcome =>
                let evs := evs ++ if postOutcome.isSome then [Ev.postHook] else []
                (.ok v, { s with counters := s.counters.incRetrieved }, evs)

/-- `S3.List` (src/s3/s3.go lines 427-532): options, defaulted parameter,
pre-hook, `ListObjectsV2` collecting the bucket's keys, post-hook, listed
counter. No target resolution. -/
def S3.List (s : S3) (env : S3Env) (target : String) (prm : Option ListPrm)
    (opts : OptFns) : Res Json × S3 × Evs :=
  match applyOptions opts NewOptions with
  | .error e => (.err e, { s with counters := s.counters.incListedFailed }, [])
  | .ok o =>
    let _finalParam : ListPrm :=
      match prm with
      | some p => p
      | none => { listNew with Search := "*" }
    match o.PreHookFunc with
    | some (some e) => (.err e, { s with counters := s.counters.incListedFailed }, [.preHook])
    | preOutcome =>
      let evs := if preOutcome.isSome then [Ev.preHook] else []
      let evs := evs ++ [Ev.s3ListObjects]
      match env.listRes with
      | .error _ =>
        (.err (.failedTo "list"), { s with counters := s.counters.incListedFailed }, evs)
      | .ok keys =>
        match o.PostHookFunc with
        | some (some e) =>
          (.err e, { s with counters := s.counters.incListedFailed }, evs ++ [.postHook])
        | postOutcome =>
          let evs := evs ++ if postOutcome.isSome then [Ev.postHook] else []
          (.ok (Json.arr (keys.map Json.str)),
            { s with counters := s.counters.incListed }, evs)

/-- `S3.Create` (src/s3/s3.go lines 540-681): options, parameter, target
resolution, pre-hook, JSON marshal, upload, post-hook, created counter; the
returned string is the upload location (modelled as the object key). No id
check: S3's `Create` does not require an id. -/
def S3.Create (s : S3) (env : S3Env) (id target : String) (v : Json)
    (prm : Option CreatePrm) (opts : OptFns) : Res String × S3 × Evs :=
  match applyOptions opts NewOptions with
  | .error e => (.err e, { s with counters := s.counters.incCreatedFailed }, [])
  | .ok o =>
    let _finalParam : CreatePrm :=
      match prm with
      | some p => p
      | none => { createNew with TTL := 0 }
    match TargetName target s.Target with
    | (_, some e) => (.err e, { s with counters := s.counters.incCreatedFailed }, [])
    | (trgt, none) =>
      match o.PreHookFunc with
      | some (some e) =>
        (.err e, { s with counters := s.counters.incCreatedFailed }, [.preHook])
      | preOutcome =>
        let evs := if preOutcome.isSome then [Ev.preHook] else []
        let _bytes := sharedMarshal v
        let evs := evs ++ [Ev.s3PutObject trgt]
        if env.putErr then
          (.err (.failedTo "create"), { s with counters := s.counters.incCreatedFailed }, evs)
        else
          match o.PostHookFunc with
          | some (some e) =>
            (.err e, { s with counters := s.counters.incCreatedFailed }, evs ++ [.postHook])
          | postOutcome =>
            let evs := evs ++ if postOutcome.isSome then [Ev.postHook] else []
            (.ok trgt, { s with counters := s.counters.incCreated }, evs)

/-- `S3.Update` (src/s3/s3.go lines 686-835): id required, options,
parameter, target resolution, pre-hook, upload, post-hook, updated counter.
The upload failure is wrapped as a failed-create error (line 803 uses
`OperationCreate`), but traced against the updated-failed counter. -/
def S3.Update (s : S3) (env : S3Env) (id target : String) (v : Json)
    (prm : Option UpdatePrm) (opts : OptFns) : Res Unit × S3 × Evs :=
  if id = "" then
    (.err (.required "id"), { s with counters := s.counters.incUpdatedFailed }, [])
  else
    match applyOptions opts NewOptions with
    | .error e => (.err e, { s with counters := s.counters.incUpdatedFailed }, [])
    | .ok o =>
      let _finalParam : UpdatePrm :=
        match prm with
        | some p => p
        | none => { updateNew with TTL := 0 }
      match TargetName target s.Target with
      | (_, some e) => (.err e, { s with counters := s.counters.incUpdatedFailed }, [])
      | (trgt, none) =>
        match o.PreHookFunc with
        | some (some e) =>
          (.err e, { s with counters := s.counters.incUpdatedFailed }, [.preHook])
        | preOutcome =>
          let evs := if preOutcome.isSome then [Ev.preHook] else []
          let _bytes := sharedMarshal v
          let evs := evs ++ [Ev.s3PutObject trgt]
          if env.putErr then
            (.err (.failedTo "create"), { s with counters := s.counters.incUpdatedFailed }, evs)
          else
            match o.PostHookFunc with
            | some (some e) =>
              (.err e, { s with counters := s.counters.incUpdatedFailed }, evs ++ [.postHook])
            | postOutcome =>
              let evs := evs ++ if postOutcome.isSome then [Ev.postHook] else []
              (.ok (), { s with counters := s.counters.incUpdated }, evs)

/-- `metrics.NewInt` (src/internal/metrics/metrics.go lines 42-56), name
computation: append `--` and the RFC3339 formatting of `time.Now()`, and
prepend the `DAL_METRICS_PREFIX` environment value and a dot when that value
is non-empty. `envPfx` is the environment variable's value (empty when
unset); `now` is the formatted current time. -/
def metricsNewIntName (envPfx now name : String) : String :=
  let finalName := name ++ "--" ++ now
  if envPfx ≠ "" then envPfx ++ "." ++ finalName else finalName

/-- `storage.DefaultMetricCounterLabel` and `storage.Type`
(src/unnamed/part_010 lines 976-979). -/
def DefaultMetricCounterLabel : String := "counter"

/-- The immutable entity type of every storage. -/
def storageType : String := "storage"

/-- The name `storage.New` (src/unnamed/part_010 lines 1095-1117) passes to
`metrics.NewInt` for one counter: `fmt.Sprintf("%s.%s.%s.%s", Type, name,
status, DefaultMetricCounterLabel)`. -/
def storageCounterBase (name status : String) : String :=
  storageType ++ "." ++ name ++ "." ++ status ++ "." ++ DefaultMetricCounterLabel

/-- The status segments `storage.New` uses for its fourteen counters, in
struct-literal order (src/unnamed/part_010 lines 1103-1116); `Retrieved`
renders as `"retreived"` (spelling preserved from the status enum,
src/status/status.go line 17). -/
def storageCounterStatuses : List String :=
  ["counted", "counted.failed", "created", "created.failed", "deleted",
   "deleted.failed", "instantiation.failed", "listed", "listed.failed",
   "ping.failed", "retreived", "retreived.failed", "updated", "updated.failed"]

/-- The full identifiers of the counters `storage.New(ctx, name)` creates,
given the environment prefix and the formatted creation time. -/
def storageNewCounterIds (envPfx now name : String) : List String :=
  storageCounterStatuses.map (fun status => metricsNewIntName envPfx now (storageCounterBase name status))

/-- Modelled from the spec: `concurrentloop.Map` (external library
`github.com/thalesfsp/concurrentloop`): apply the function to every element,
returning the collected results and the collected errors. The concurrent
completion order is not observable in the error-aggregation claims; the model
uses input order. -/
def concurrentloopMap {σ α : Type} (xs : List σ) (f : σ → Except Err α) :
    List α × List Err :=
  match xs with
  | [] => ([], [])
  | x :: rest =>
    let (rs, es) := concurrentloopMap rest f
    match f x with
    | .ok r => (r :: rs, es)
    | .error e => (rs, e :: es)

/-- `storage.Map` (src/unnamed/part_012 line 225) with `ToSlice`
(lines 252-260): the named adapter mapping, modelled as an association list
whose `call` parameters stand for the per-adapter operation closures. -/
abbrev StorageMap (σ : Type) := List (String × σ)

/-- `Map.ToSlice` (src/unnamed/part_012 lines 252-260). -/
def toSlice {σ : Type} (m : StorageMap σ) : List σ := m.map (fun q => q.2)

/-- `storage.CountFromMany` (src/unnamed/part_012 lines 267-283): count on
every adapter; with any child error return a nil payload and the aggregate
`concurrentloop.Errors` value. -/
def CountFromMany {σ : Type} (m : StorageMap σ) (call : σ → Except Err Int) :
    Option (List Int) × Option Err :=
  let (r, errs) := concurrentloopMap (toSlice m) call
  match errs with
  | [] => (some r, none)
  | _ => (none, some (.aggregate errs))

/-- `storage.CreateIntoMany` (src/unnamed/part_012 lines 286-303). -/
def CreateIntoMany {σ : Type} (m : StorageMap σ) (call : σ → Except Err String) :
    Option (List String) × Option Err :=
  let (r, errs) := concurrentloopMap (toSlice m) call
  match errs with
  | [] => (some r, none)
  | _ => (none, some (.aggregate errs))

/-- `storage.DeleteFromMany` (src/unnamed/part_012 lines 306-326): the
closure maps a successful delete to `true`. -/
def DeleteFromMany {σ : Type} (m : StorageMap σ) (call : σ → Except Err Unit) :
    Option (List Bool) × Option Err :=
  let (r, errs) := concurrentloopMap (toSlice m)
    (fun s => match call s with
      | .error e => .error e
      | .ok _ => .ok true)
  match errs with
  | [] => (some r, none)
  | _ => (none, some (.aggregate errs))

/-- `storage.ListFromMany` (src/unnamed/part_012 lines 331-347): per-adapter
results flattened with `Flatten2D`. -/
def ListFromMany {σ T : Type} (m : StorageMap σ) (call : σ → Except Err (List T)) :
    Option (List T) × Option Err :=
  let (r, errs) := concurrentloopMap (toSlice m) call
  match errs with
  | [] => (some (Flatten2D r), none)
  | _ => (none, some (.aggregate errs))

/-- `storage.RetrieveFromMany` (src/unnamed/part_012 lines 351-367). Note
line 363: on any child failure the function returns `err[0]` — the first
collected child error — where its five siblings return the whole `errs`
aggregate. -/
def RetrieveFromMany {σ T : Type} (m : StorageMap σ) (call : σ → Except Err T) :
    Option (List T) × Option Err :=
  let (r, errs) := concurrentloopMap (toSlice m) call
  match errs with
  | [] => (some r, none)
  | e :: _ => (none, some e)

/-- `storage.UpdateIntoMany` (src/unnamed/part_012 lines 370-391). -/
def UpdateIntoMany {σ : Type} (m : StorageMap σ) (call : σ → Except Err Unit) :
    Option (List Bool) × Option Err :=
  let (r, errs) := concurrentloopMap (toSlice m)
    (fun s => match call s with
      | .error e => .error e
      | .ok _ => .ok true)
  match errs with
  | [] => (some r, none)
  | _ => (none, some (.aggregate errs))

/-- A File adapter with fresh counters, no static target, and an empty file
system. -/
def file0 : File := ⟨"", Counters.init, [], []⟩

/-- A benign environment: glob succeeds with no matches and no OS call fails
for exotic reasons. -/
def fileEnv0 : FileEnv := ⟨.ok [], false, false, false⟩

/-- A Memory adapter with fresh counters and an empty map. -/
def memory0 : Memory := ⟨"", Counters.init, []⟩

/-- A Redis adapter with fresh counters. -/
def redis0 : Redis := ⟨"", Counters.init⟩

/-- A benign Redis server: every command succeeds and finds nothing. -/
def redisEnv0 : RedisEnv := ⟨.ok [], .nilRes, false, false, .ok []⟩

/-- An Insightly adapter with fresh counters. -/
def insightly0 : Insightly := ⟨"", "https://api.test", "key", Counters.init⟩

/-- An S3 adapter with fresh counters, a bucket and no static target. -/
def s3zero : S3 := ⟨"bkt", "", Counters.init⟩

/-- A benign S3 service: listing finds nothing, `GetObject` returns an empty
body, uploads and deletes succeed. -/
def s3Env0 : S3Env := ⟨.ok [], .ok "", false, false⟩

/-- Whether a character list can safely follow a serialized number: empty or
headed by a non-digit. -/
def sepOk (cs : List Char) : Bool :=
  match cs with
  | [] => true
  | c :: _ => !c.isDigit

theorem digitChar_isDigit (k : Nat) : (digitChar k).isDigit = true := by
  unfold digitChar
  split <;> decide

theorem digitVal_digitChar (k : Nat) (h : k < 10) : digitVal (digitChar k) = k := by
  interval_cases k <;> decide

theorem natDigitsAux_ne_nil (fuel n : Nat) (h : n < fuel) : natDigitsAux fuel n ≠ [] := by
  cases fuel with
  | zero => omega
  | succ f =>
    unfold natDigitsAux
    split <;> simp

theorem natDigits_ne_nil (n : Nat) : natDigits n ≠ [] :=
  natDigitsAux_ne_nil (n + 1) n (by omega)

theorem natDigitsAux_all_digits (fuel : Nat) :
    ∀ n c, c ∈ natDigitsAux fuel n → c.isDigit = true := by
  induction fuel with
  | zero => intro n c hc; simp [natDigitsAux] at hc
  | succ f ih =>
    intro n c hc
    unfold natDigitsAux at hc
    split at hc
    · simp at hc
      subst hc
      exact digitChar_isDigit n
    · simp [List.mem_append] at hc
      rcases hc with h1 | h1
      · exact ih (n / 10) c h1
      · subst h1
        exact digitChar_isDigit _

theorem natDigits_all_digits (n : Nat) : ∀ c ∈ natDigits n, c.isDigit = true :=
  fun c hc => natDigitsAux_all_digits (n + 1) n c hc

theorem foldl_digits_aux (fuel : Nat) :
    ∀ n acc, n < fuel →
      List.foldl (fun a c => a * 10 + digitVal c) acc (natDigitsAux fuel n) =
        acc * 10 ^ (natDigitsAux fuel n).length + n := by
  induction fuel with
  | zero => intro n acc h; omega
  | succ f ih =>
    intro n acc h
    unfold natDigitsAux
    split
    · rename_i h10
      simp [List.foldl, digitVal_digitChar n h10]
    · rename_i h10
      have hlt : n / 10 < f := by omega
      rw [List.foldl_append]
      simp only [List.foldl, List.length_append, List.length_cons, List.length_nil]
      rw [ih (n / 10) acc hlt]
      rw [digitVal_digitChar (n % 10) (by omega)]
      have hpow : 10 ^ ((natDigitsAux f (n / 10)).length + 1) =
          10 ^ (natDigitsAux f (n / 10)).length * 10 := by
        rw [pow_succ]
      rw [hpow, Nat.add_mul, ← Nat.mul_assoc]
      omega

theorem digitsVal_natDigits (n : Nat) : digitsVal (natDigits n) = n := by
  unfold digitsVal natDigits
  rw [foldl_digits_aux (n + 1) n 0 (by omega)]
  simp

theorem takeWhile_append_all {p : Char → Bool} (l r : List Char)
    (h : ∀ c ∈ l, p c = true) :
    List.takeWhile p (l ++ r) = l ++ List.takeWhile p r := by
  induction l with
  | nil => simp
  | cons c t ih =>
    simp only [List.cons_append, List.takeWhile_cons, h c (by simp)]
    rw [ih (fun c hc => h c (by simp [hc]))]
    simp

theorem dropWhile_append_all {p : Char → Bool} (l r : List Char)
    (h : ∀ c ∈ l, p c = true) :
    List.dropWhile p (l ++ r) = List.dropWhile p r := by
  induction l with
  | nil => simp
  | cons c t ih =>
    simp only [List.cons_append, List.dropWhile_cons, h c (by simp)]
    exact ih (fun c hc => h c (by simp [hc]))

theorem takeWhile_of_sepOk (r : List Char) (h : sepOk r = true) :
    List.takeWhile Char.isDigit r = [] := by
  cases r with
  | nil => rfl
  | cons c t =>
    simp [sepOk] at h
    simp [List.takeWhile_cons, h]

theorem dropWhile_of_sepOk (r : List Char) (h : sepOk r = true) :
    List.dropWhile Char.isDigit r = r := by
  cases r with
  | nil => rfl
  | cons c t =>
    simp [sepOk] at h
    simp [List.dropWhile_cons, h]

theorem parseNatPart_natDigits (n : Nat) (rest : List Char) (h : sepOk rest = true) :
    parseNatPart (natDigits n ++ rest) = some (n, rest) := by
  unfold parseNatPart
  rw [takeWhile_append_all _ _ (natDigits_all_digits n),
    takeWhile_of_sepOk rest h,
    dropWhile_append_all _ _ (natDigits_all_digits n),
    dropWhile_of_sepOk rest h]
  simp [natDigits_ne_nil n, digitsVal_natDigits n]

theorem parseStrBody_escChars (s : List Char) (rest : List Char) :
    parseStrBody (escChars s ++ '"' :: rest) = some (s, rest) := by
  induction s with
  | nil => simp [escChars, parseStrBody.eq_def]
  | cons c t ih =>
    have hesc : escChars (c :: t) = escChar c ++ escChars t := by
      simp [escChars]
    rw [hesc]
    by_cases hc : c = '"' ∨ c = '\\'
    · rw [escChar, if_pos hc]
      simp only [List.cons_append, List.append_assoc]
      rw [parseStrBody.eq_def]
      simp [ih]
    · rw [escChar, if_neg hc]
      push_neg at hc
      simp only [List.cons_append, List.nil_append]
      rw [parseStrBody.eq_def]
      simp [hc.1, hc.2, ih]

theorem stringMk_data (s : String) : String.mk s.data = s := rfl

theorem one_le_wJson (v : Json) : 1 ≤ wJson v := by
  cases v <;> simp [wJson]

theorem serChars_ne_nil (v : Json) : serChars v ≠ [] := by
  cases v with
  | null => simp [serChars]
  | bool b => cases b <;> simp [serChars]
  | num n =>
    simp only [serChars, intChars]
    split
    · simp
    · exact natDigits_ne_nil _
  | str s => simp [serChars]
  | arr xs => simp [serChars]
  | obj fs => simp [serChars]

theorem isDigit_ne_brackets (c : Char) (h : c.isDigit = true) :
    c ≠ ']' ∧ c ≠ '}' := by
  constructor <;> intro he <;> subst he <;> exact absurd h (by decide)

theorem serChars_head_ok (v : Json) (c : Char) (t : List Char)
    (h : serChars v = c :: t) : c ≠ ']' ∧ c ≠ '}' := by
  cases v with
  | null => simp [serChars] at h; exact h.1 ▸ (by decide)
  | bool b => cases b <;> simp [serChars] at h <;> exact h.1 ▸ (by decide)
  | num n =>
    simp only [serChars, intChars] at h
    split at h
    · rw [List.cons.injEq] at h
      exact h.1 ▸ (by decide)
    · have hd : c.isDigit = true := by
        apply natDigits_all_digits n.natAbs
        rw [h]
        simp
      exact isDigit_ne_brackets c hd
  | str s => simp [serChars] at h; exact h.1 ▸ (by decide)
  | arr xs => simp [serChars] at h; exact h.1 ▸ (by decide)
  | obj fs => simp [serChars] at h; exact h.1 ▸ (by decide)

theorem parse_ser_num (f : Nat) (n : Int) (rest : List Char) (hsep : sepOk rest = true) :
    parseVal (f + 1) (serChars (.num n) ++ rest) = some (.num n, rest) := by
  by_cases hn : n < 0
  · simp only [serChars, intChars, if_pos hn, List.cons_append]
    simp only [parseVal]
    rw [if_neg (by decide), if_pos trivial]
    rw [parseNatPart_natDigits n.natAbs rest hsep]
    have h2 : -(n.natAbs : Int) = n := by omega
    dsimp only
    rw [h2]
  · simp only [serChars, intChars, if_neg hn]
    obtain ⟨d, ds, hds⟩ : ∃ d ds, natDigits n.natAbs = d :: ds := by
      cases hnd : natDigits n.natAbs with
      | nil => exact absurd hnd (natDigits_ne_nil _)
      | cons d ds => exact ⟨d, ds, rfl⟩
    have hd : d.isDigit = true :=
      natDigits_all_digits n.natAbs d (by rw [hds]; simp)
    rw [hds, List.cons_append]
    simp only [parseVal]
    rw [if_pos hd]
    rw [show d :: (ds ++ rest) = (d :: ds) ++ rest from rfl, ← hds]
    rw [parseNatPart_natDigits n.natAbs rest hsep]
    have h2 : (n.natAbs : Int) = n := by omega
    dsimp only
    rw [h2]

theorem sepOk_serArrTail (xs : List Json) (rest : List Char) :
    sepOk (serArrTail xs ++ rest) = true := by
  cases xs <;> simp [serArrTail, sepOk]

theorem sepOk_serObjTail (fs : List (String × Json)) (rest : List Char) :
    sepOk (serObjTail fs ++ rest) = true := by
  cases fs <;> simp [serObjTail, sepOk]

theorem parse_ser_main (N : Nat) :
    (∀ v : Json, wJson v ≤ N → ∀ fuel, wJson v ≤ fuel → ∀ rest, sepOk rest = true →
      parseVal fuel (serChars v ++ rest) = some (v, rest)) ∧
    (∀ (x : Json) (xs : List Json), wItems (x :: xs) ≤ N → ∀ fuel, wItems (x :: xs) ≤ fuel →
      ∀ rest, parseItems fuel (serChars x ++ serArrTail xs ++ rest) = some (x :: xs, rest)) ∧
    (∀ (k : String) (v : Json) (fs : List (String × Json)), wFields ((k, v) :: fs) ≤ N →
      ∀ fuel, wFields ((k, v) :: fs) ≤ fuel →
      ∀ rest, parseFields fuel (serField (k, v) ++ serObjTail fs ++ rest) =
        some ((k, v) :: fs, rest)) := by
  induction N using Nat.strong_induction_on with
  | _ N ih =>
    refine ⟨?_, ?_, ?_⟩
    · intro v hN fuel hw rest hsep
      obtain ⟨f, rfl⟩ : ∃ f, fuel = f + 1 :=
        ⟨fuel - 1, by have := one_le_wJson v; omega⟩
      cases v with
      | null => simp [serChars, parseVal]
      | bool b => cases b <;> simp [serChars, parseVal]
      | num n => exact parse_ser_num f n rest hsep
      | str s =>
        simp only [serChars, List.cons_append, List.append_assoc, List.singleton_append,
          List.nil_append]
        simp only [parseVal]
        rw [if_neg (by decide), if_neg (by decide), if_pos trivial]
        rw [parseStrBody_escChars s.data rest]
      | arr xs =>
        cases xs with
        | nil => simp [serChars, serArrBody, parseVal]
        | cons x xs =>
          simp only [serChars, serArrBody, List.cons_append, List.append_assoc]
          simp only [parseVal]
          rw [if_neg (by decide), if_neg (by decide), if_neg (by decide), if_pos trivial]
          obtain ⟨c2, t, hct⟩ : ∃ c2 t, serChars x = c2 :: t := by
            cases hx : serChars x with
            | nil => exact absurd hx (serChars_ne_nil x)
            | cons c2 t => exact ⟨c2, t, rfl⟩
          have hne := (serChars_head_ok x c2 t hct).1
          rw [hct, List.cons_append]
          dsimp only
          rw [if_neg hne]
          rw [show c2 :: (t ++ (serArrTail xs ++ rest)) =
            (c2 :: t) ++ serArrTail xs ++ rest by simp, ← hct]
          have hN2 : wItems (x :: xs) < N := by
            simp only [wJson] at hN
            omega
          have hit : wItems (x :: xs) ≤ f := by
            simp only [wJson] at hw
            omega
          rw [(ih (wItems (x :: xs)) hN2).2.1 x xs le_rfl f hit rest]
      | obj fs =>
        cases fs with
        | nil => simp [serChars, serObjBody, parseVal]
        | cons kv fs =>
          obtain ⟨k, v⟩ := kv
          simp only [serChars, serObjBody, List.cons_append, List.append_assoc]
          simp only [parseVal]
          rw [if_neg (by decide), if_neg (by decide), if_neg (by decide),
            if_neg (by decide), if_pos trivial]
          have hser : serField (k, v) ++ (serObjTail fs ++ rest) =
              '"' :: (escChars k.data ++ ('"' :: (':' :: (serChars v ++ (serObjTail fs ++ rest))))) := by
            simp [serField]
          rw [hser]
          dsimp only
          rw [if_neg (by decide)]
          rw [← hser, ← List.append_assoc]
          have hN2 : wFields ((k, v) :: fs) < N := by
            simp only [wJson] at hN
            omega
          have hfs : wFields ((k, v) :: fs) ≤ f := by
            simp only [wJson] at hw
            omega
          rw [(ih (wFields ((k, v) :: fs)) hN2).2.2 k v fs le_rfl f hfs rest]
    · intro x xs hN fuel hw rest
      obtain ⟨f, rfl⟩ : ∃ f, fuel = f + 1 :=
        ⟨fuel - 1, by simp only [wItems] at hw; omega⟩
      simp only [parseItems]
      rw [show serChars x ++ serArrTail xs ++ rest =
        serChars x ++ (serArrTail xs ++ rest) by simp]
      have hvx : wJson x < N := by
        have h0 : 0 ≤ wItems xs := Nat.zero_le _
        simp only [wItems] at hN
        omega
      rw [(ih (wJson x) hvx).1 x le_rfl f (by simp only [wItems] at hw; omega)
        (serArrTail xs ++ rest) (sepOk_serArrTail xs rest)]
      cases xs with
      | nil => simp [serArrTail]
      | cons y ys =>
        simp only [serArrTail, List.cons_append]
        rw [if_pos trivial]
        have hN2 : wItems (y :: ys) < N := by
          have h1 := one_le_wJson x
          simp only [wItems] at hN ⊢
          omega
        rw [(ih (wItems (y :: ys)) hN2).2.1 y ys le_rfl f
          (by have h1 := one_le_wJson x; simp only [wItems] at hw ⊢; omega) rest]
    · intro k v fs hN fuel hw rest
      obtain ⟨f, rfl⟩ : ∃ f, fuel = f + 1 :=
        ⟨fuel - 1, by simp only [wFields] at hw; omega⟩
      have hser : serField (k, v) ++ serObjTail fs ++ rest =
          '"' :: (escChars k.data ++ ('"' :: (':' :: (serChars v ++ (serObjTail fs ++ rest))))) := by
        simp [serField]
      rw [hser]
      simp only [parseFields]
      rw [if_pos trivial]
      rw [parseStrBody_escChars k.data (':' :: (serChars v ++ (serObjTail fs ++ rest)))]
      dsimp only
      rw [if_pos rfl]
      have hvx : wJson v < N := by
        simp only [wFields] at hN
        omega
      rw [(ih (wJson v) hvx).1 v le_rfl f (by simp only [wFields] at hw; omega)
        (serObjTail fs ++ rest) (sepOk_serObjTail fs rest)]
      cases fs with
      | nil =>
        simp [serObjTail, stringMk_data]
      | cons kv2 fs2 =>
        obtain ⟨k2, v2⟩ := kv2
        simp only [serObjTail, List.cons_append]
        rw [if_pos trivial]
        have hN2 : wFields ((k2, v2) :: fs2) < N := by
          have h1 := one_le_wJson v
          simp only [wFields] at hN ⊢
          omega
        rw [(ih (wFields ((k2, v2) :: fs2)) hN2).2.2 k2 v2 fs2 le_rfl f
          (by have h1 := one_le_wJson v; simp only [wFields] at hw ⊢; omega) rest]

theorem parse_serChars (v : Json) (fuel : Nat) (hw : wJson v ≤ fuel)
    (rest : List Char) (hsep : sepOk rest = true) :
    parseVal fuel (serChars v ++ rest) = some (v, rest) :=
  (parse_ser_main (wJson v)).1 v le_rfl fuel hw rest hsep

theorem wJson_bound_main (N : Nat) :
    (∀ v : Json, wJson v ≤ N → wJson v ≤ (serChars v).length) ∧
    (∀ xs : List Json, wItems xs ≤ N → wItems xs + 1 ≤ (serArrTail xs).length) ∧
    (∀ fs : List (String × Json), wFields fs ≤ N → wFields fs + 1 ≤ (serObjTail fs).length) := by
  induction N using Nat.strong_induction_on with
  | _ N ih =>
    refine ⟨?_, ?_, ?_⟩
    · intro v hN
      cases v with
      | null => simp [serChars, wJson]
      | bool b => cases b <;> simp [serChars, wJson]
      | num n =>
        have h := natDigits_ne_nil n.natAbs
        simp only [serChars, wJson, intChars]
        split
        · simp
        · cases hd : natDigits n.natAbs with
          | nil => exact absurd hd h
          | cons d ds => simp [hd]
      | str s => simp [serChars, wJson]
      | arr xs =>
        cases xs with
        | nil => simp [serChars, serArrBody, serArrTail, wJson, wItems]
        | cons x xs =>
          have hlt : wItems (x :: xs) < N := by
            simp only [wJson] at hN
            omega
          have hx := (ih (wItems (x :: xs)) hlt).1 x
            (by simp only [wItems]; omega)
          have hxs := (ih (wItems (x :: xs)) hlt).2.1 xs
            (by have := one_le_wJson x; simp only [wItems]; omega)
          simp only [serChars, serArrBody, wJson, wItems, List.length_cons,
            List.length_append] at *
          omega
      | obj fs =>
        cases fs with
        | nil => simp [serChars, serObjBody, serObjTail, wJson, wFields]
        | cons kv fs =>
          obtain ⟨k, v⟩ := kv
          have hlt : wFields ((k, v) :: fs) < N := by
            simp only [wJson] at hN
            omega
          have hx := (ih (wFields ((k, v) :: fs)) hlt).1 v
            (by simp only [wFields]; omega)
          have hfs := (ih (wFields ((k, v) :: fs)) hlt).2.2 fs
            (by have := one_le_wJson v; simp only [wFields]; omega)
          simp only [serChars, serObjBody, serField, wJson, wFields, List.length_cons,
            List.length_append] at *
          omega
    · intro xs hN
      cases xs with
      | nil => simp [serArrTail, wItems]
      | cons y ys =>
        have h1 := one_le_wJson y
        have hys : wItems ys < N := by
          simp only [wItems] at hN
          omega
        have hyN : wJson y < N := by
          simp only [wItems] at hN
          omega
        have ha := (ih (wJson y) hyN).1 y le_rfl
        have hb := (ih (wItems ys) hys).2.1 ys le_rfl
        simp only [serArrTail, wItems, List.length_cons, List.length_append] at *
        omega
    · intro fs hN
      cases fs with
      | nil => simp [serObjTail, wFields]
      | cons kv fs2 =>
        obtain ⟨k, v⟩ := kv
        have h1 := one_le_wJson v
        have hfs : wFields fs2 < N := by
          simp only [wFields] at hN
          omega
        have hvN : wJson v < N := by
          simp only [wFields] at hN
          omega
        have ha := (ih (wJson v) hvN).1 v le_rfl
        have hb := (ih (wFields fs2) hfs).2.2 fs2 le_rfl
        simp only [serObjTail, serField, wFields, List.length_cons, List.length_append] at *
        omega

theorem wJson_le_serLen (v : Json) : wJson v ≤ (serChars v).length :=
  (wJson_bound_main (wJson v)).1 v le_rfl

theorem sharedUnmarshal_sharedMarshal (v : Json) :
    sharedUnmarshal (sharedMarshal v) = .ok v := by
  unfold sharedUnmarshal sharedMarshal
  have hdata : (String.mk (serChars v)).data = serChars v := rfl
  rw [hdata]
  have h := parse_serChars v ((serChars v).length + 1)
    (by have := wJson_le_serLen v; omega) [] rfl
  rw [List.append_nil] at h
  rw [h]

theorem file_count_delta (s : File) (env : FileEnv) (target : String)
    (prm : Option CountPrm) (opts : OptFns) :
    ((File.Count s env target prm opts).2.1.counters).sumOf .count =
      s.counters.sumOf .count + 1 := by
  unfold File.Count
  repeat' split
  all_goals try simp_all [Counters.sumOf, Counters.incCounted, Counters.incCountedFailed]
  all_goals omega

theorem file_delete_delta (s : File) (env : FileEnv) (id target : String)
    (prm : Option DeletePrm) (opts : OptFns) :
    ((File.Delete s env id target prm opts).2.1.counters).sumOf .delete =
        s.counters.sumOf .delete + 1 ∨
      ((File.Delete s env id target prm opts).1 = .ok () ∧
        (File.Delete s env id target prm opts).2.1.counters = s.counters) := by
  unfold File.Delete
  repeat' split
  all_goals
    first
    | (left
       simp_all [Counters.sumOf, Counters.incDeleted, Counters.incDeletedFailed]
       omega)
    | (right
       simp_all)

theorem file_retrieve_delta (s : File) (env : FileEnv) (id target : String)
    (prm : Option RetrievePrm) (opts : OptFns) :
    ((File.Retrieve s env id target prm opts).2.1.counters).sumOf .retrieve =
        s.counters.sumOf .retrieve + 1 ∨
      (File.Retrieve s env id target prm opts).2.1.counters =
        s.counters.incDeletedFailed := by
  unfold File.Retrieve
  repeat' split
  all_goals
    first
    | (left
       simp_all [Counters.sumOf, Counters.incRetrieved, Counters.incRetrievedFailed]
       omega)
    | (right
       simp_all)

theorem file_list_delta (s : File) (env : FileEnv) (target : String)
    (prm : Option ListPrm) (opts : OptFns) :
    ((File.List s env target prm opts).2.1.counters).sumOf .list =
      s.counters.sumOf .list + 1 := by
  unfold File.List
  repeat' split
  all_goals try simp_all [Counters.sumOf, Counters.incListed, Counters.incListedFailed]
  all_goals omega

theorem file_create_some_delta (s : File) (env : FileEnv) (id target : String)
    (v : Json) (p : CreatePrm) (opts : OptFns) :
    ((File.Create s env id target v (some p) opts).2.1.counters).sumOf .create =
      s.counters.sumOf .create + 1 := by
  unfold File.Create
  repeat' split
  all_goals try simp_all [Counters.sumOf, Counters.incCreated, Counters.incCreatedFailed]
  all_goals omega

theorem file_create_none_delta (s : File) (env : FileEnv) (id target : String)
    (v : Json) (opts : OptFns) :
    (((File.Create s env id target v none opts).1.isPanic = false) →
      ((File.Create s env id target v none opts).2.1.counters).sumOf .create =
        s.counters.sumOf .create + 1) ∧
    (((File.Create s env id target v none opts).1.isPanic = true) →
      (File.Create s env id target v none opts).2.1.counters = s.counters) := by
  unfold File.Create
  repeat' split
  all_goals
    try simp_all [Res.isPanic, Counters.sumOf, Counters.incCreated, Counters.incCreatedFailed]
  all_goals omega

theorem file_create_delta (s : File) (env : FileEnv) (id target : String) (v : Json)
    (prm : Option CreatePrm) (opts : OptFns) :
    (((File.Create s env id target v prm opts).1.isPanic = false) →
      ((File.Create s env id target v prm opts).2.1.counters).sumOf .create =
        s.counters.sumOf .create + 1) ∧
    (((File.Create s env id target v prm opts).1.isPanic = true) →
      (File.Create s env id target v prm opts).2.1.counters = s.counters) := by
  cases prm with
  | none => exact file_create_none_delta s env id target v opts
  | some p =>
    refine ⟨fun _ => file_create_some_delta s env id target v p opts, fun hp => ?_⟩
    exfalso
    revert hp
    unfold File.Create
    repeat' split
    all_goals simp_all [Res.isPanic]

theorem file_update_delta (s : File) (env : FileEnv) (id target : String) (v : Json)
    (prm : Option UpdatePrm) (opts : OptFns) :
    ((File.Update s env id target v prm opts).2.1.counters).sumOf .update =
      s.counters.sumOf .update + 1 := by
  unfold File.Update
  repeat' split
  all_goals try simp_all [Counters.sumOf, Counters.incUpdated, Counters.incUpdatedFailed]
  all_goals omega

theorem memory_count_delta (s : Memory) (target : String) (prm : Option CountPrm)
    (opts : OptFns) :
    ((Memory.Count s target prm opts).2.1.counters).sumOf .count =
      s.counters.sumOf .count + 1 := by
  unfold Memory.Count
  repeat' split
  all_goals try simp_all [Counters.sumOf, Counters.incCounted, Counters.incCountedFailed]
  all_goals omega

theorem memory_delete_delta (s : Memory) (id target : String) (prm : Option DeletePrm)
    (opts : OptFns) :
    ((Memory.Delete s id target prm opts).2.1.counters).sumOf .delete =
      s.counters.sumOf .delete + 1 := by
  unfold Memory.Delete
  repeat' split
  all_goals try simp_all [Counters.sumOf, Counters.incDeleted, Counters.incDeletedFailed]
  all_goals omega

theorem memory_retrieve_delta (s : Memory) (id target : String) (prm : Option RetrievePrm)
    (opts : OptFns) :
    ((Memory.Retrieve s id target prm opts).2.1.counters).sumOf .retrieve =
      s.counters.sumOf .retrieve + 1 := by
  unfold Memory.Retrieve
  repeat' split
  all_goals try simp_all [Counters.sumOf, Counters.incRetrieved, Counters.incRetrievedFailed]
  all_goals omega

theorem memory_list_delta (s : Memory) (target : String) (prm : Option ListPrm)
    (opts : OptFns) :
    ((Memory.List s target prm opts).2.1.counters).sumOf .list =
      s.counters.sumOf .list + 1 := by
  unfold Memory.List
  repeat' split
  all_goals try simp_all [Counters.sumOf, Counters.incListed, Counters.incListedFailed]
  all_goals omega

theorem memory_create_delta (s : Memory) (id target : String) (v : Json)
    (prm : Option CreatePrm) (opts : OptFns) :
    ((Memory.Create s id target v prm opts).2.1.counters).sumOf .create =
      s.counters.sumOf .create + 1 := by
  unfold Memory.Create
  repeat' split
  all_goals try simp_all [Counters.sumOf, Counters.incCreated, Counters.incCreatedFailed]
  all_goals omega

theorem memory_update_delta (s : Memory) (id target : String) (v : Json)
    (prm : Option UpdatePrm) (opts : OptFns) :
    ((Memory.Update s id target v prm opts).2.1.counters).sumOf .update =
      s.counters.sumOf .update + 1 := by
  unfold Memory.Update
  repeat' split
  all_goals try simp_all [Counters.sumOf, Counters.incUpdated, Counters.incUpdatedFailed]
  all_goals omega

theorem redis_count_delta (s : Redis) (env : RedisEnv) (target : String)
    (prm : Option CountPrm) (opts : OptFns) :
    ((Redis.Count s env target prm opts).2.1.counters).sumOf .count =
      s.counters.sumOf .count + 1 := by
  unfold Redis.Count
  repeat' split
  all_goals try simp_all [Counters.sumOf, Counters.incCounted, Counters.incCountedFailed]
  all_goals omega

theorem redis_delete_delta (s : Redis) (env : RedisEnv) (id target : String)
    (prm : Option DeletePrm) (opts : OptFns) :
    ((Redis.Delete s env id target prm opts).2.1.counters).sumOf .delete =
      s.counters.sumOf .delete + 1 := by
  unfold Redis.Delete
  repeat' split
  all_goals try simp_all [Counters.sumOf, Counters.incDeleted, Counters.incDeletedFailed]
  all_goals omega

theorem redis_retrieve_delta (s : Redis) (env : RedisEnv) (id target : String)
    (prm : Option RetrievePrm) (opts : OptFns) :
    ((Redis.Retrieve s env id target prm opts).2.1.counters).sumOf .retrieve =
      s.counters.sumOf .retrieve + 1 := by
  unfold Redis.Retrieve
  repeat' split
  all_goals try simp_all [Counters.sumOf, Counters.incRetrieved, Counters.incRetrievedFailed]
  all_goals omega

theorem redis_list_delta (s : Redis) (env : RedisEnv) (target : String)
    (prm : Option ListPrm) (opts : OptFns) :
    ((Redis.List s env target prm opts).2.1.counters).sumOf .list =
      s.counters.sumOf .list + 1 := by
  unfold Redis.List
  repeat' split
  all_goals try simp_all [Counters.sumOf, Counters.incListed, Counters.incListedFailed]
  all_goals omega

theorem redis_create_delta (s : Redis) (env : RedisEnv) (id target : String) (v : Json)
    (prm : Option CreatePrm) (opts : OptFns) :
    ((Redis.Create s env id target v prm opts).2.1.counters).sumOf .create =
      s.counters.sumOf .create + 1 := by
  unfold Redis.Create
  repeat' split
  all_goals try simp_all [Counters.sumOf, Counters.incCreated, Counters.incCreatedFailed]
  all_goals omega

theorem redis_update_delta (s : Redis) (env : RedisEnv) (id target : String) (v : Json)
    (prm : Option UpdatePrm) (opts : OptFns) :
    ((Redis.Update s env id target v prm opts).2.1.counters).sumOf .update =
        s.counters.sumOf .update + 1 ∨
      ((Redis.Update s env id target v prm opts).1 = .err (.failedTo "update") ∧
        (Redis.Update s env id target v prm opts).2.1.counters =
          s.counters.incCountedFailed) := by
  unfold Redis.Update
  repeat' split
  all_goals
    first
    | (left
       simp_all [Counters.sumOf, Counters.incUpdated, Counters.incUpdatedFailed]
       omega)
    | (right
       simp_all)

theorem insightly_count_delta (s : Insightly) (target : String) (prm : Option CountPrm)
    (opts : OptFns) :
    ((Insightly.Count s target prm opts).2.1.counters).sumOf .count =
      s.counters.sumOf .count + 1 := by
  simp [Insightly.Count, Counters.sumOf, Counters.incCountedFailed]
  omega

theorem insightly_delete_delta (s : Insightly) (id target : String) (prm : Option DeletePrm)
    (opts : OptFns) :
    ((Insightly.Delete s id target prm opts).2.1.counters).sumOf .delete =
      s.counters.sumOf .delete + 1 := by
  simp [Insightly.Delete, Counters.sumOf, Counters.incDeletedFailed]
  omega

theorem insightly_retrieve_delta (s : Insightly) (id target : String)
    (prm : Option RetrievePrm) (opts : OptFns) :
    ((Insightly.Retrieve s id target prm opts).2.1.counters).sumOf .retrieve =
      s.counters.sumOf .retrieve + 1 := by
  unfold Insightly.Retrieve
  repeat' split
  all_goals simp [Counters.sumOf, Counters.incRetrieved, Counters.incRetrievedFailed]
  all_goals omega

theorem insightly_list_delta (s : Insightly) (target : String) (prm : Option ListPrm)
    (opts : OptFns) :
    ((Insightly.List s target prm opts).2.1.counters).sumOf .list =
      s.counters.sumOf .list + 1 := by
  simp [Insightly.List, Counters.sumOf, Counters.incListed]
  omega

theorem insightly_update_delta (s : Insightly) (id target : String) (v : Json)
    (prm : Option UpdatePrm) (opts : OptFns) :
    ((Insightly.Update s id target v prm opts).2.1.counters).sumOf .update =
      s.counters.sumOf .update + 1 := by
  unfold Insightly.Update
  repeat' split
  all_goals simp [Counters.sumOf, Counters.incUpdated, Counters.incUpdatedFailed]
  all_goals omega

theorem insightly_create_delta (s : Insightly) (env : InsightlyEnv) (id target : String)
    (v : Json) (prm : Option CreatePrm) (opts : OptFns) :
    ((Insightly.Create s env id target v prm opts).2.1.counters).sumOf .create =
      s.counters.sumOf .create + 1 := by
  unfold Insightly.Create
  repeat' split
  all_goals try simp_all [Counters.sumOf, Counters.incCreated, Counters.incCreatedFailed]
  all_goals omega

theorem s3_count_delta (s : S3) (env : S3Env) (target : String)
    (prm : Option CountPrm) (opts : OptFns) :
    ((S3.Count s env target prm opts).2.1.counters).sumOf .count =
      s.counters.sumOf .count + 1 := by
  unfold S3.Count
  repeat' split
  all_goals try simp_all [Counters.sumOf, Counters.incCounted, Counters.incCountedFailed]
  all_goals omega

theorem s3_delete_delta (s : S3) (env : S3Env) (id target : String)
    (prm : Option DeletePrm) (opts : OptFns) :
    ((S3.Delete s env id target prm opts).2.1.counters).sumOf .delete =
      s.counters.sumOf .delete + 1 := by
  unfold S3.Delete
  repeat' split
  all_goals try simp_all [Counters.sumOf, Counters.incDeleted, Counters.incDeletedFailed]
  all_goals omega

theorem s3_retrieve_delta (s : S3) (env : S3Env) (id target : String)
    (prm : Option RetrievePrm) (opts : OptFns) :
    ((S3.Retrieve s env id target prm opts).2.1.counters).sumOf .retrieve =
        s.counters.sumOf .retrieve + 1 ∨
      (S3.Retrieve s env id target prm opts).2.1.counters =
        s.counters.incDeletedFailed := by
  unfold S3.Retrieve
  repeat' split
  all_goals
    first
    | (left
       simp_all [Counters.sumOf, Counters.incRetrieved, Counters.incRetrievedFailed]
       omega)
    | (right
       simp_all)

theorem s3_list_delta (s : S3) (env : S3Env) (target : String)
    (prm : Option ListPrm) (opts : OptFns) :
    ((S3.List s env target prm opts).2.1.counters).sumOf .list =
      s.counters.sumOf .list + 1 := by
  unfold S3.List
  repeat' split
  all_goals try simp_all [Counters.sumOf, Counters.incListed, Counters.incListedFailed]
  all_goals omega

theorem s3_create_delta (s : S3) (env : S3Env) (id target : String) (v : Json)
    (prm : Option CreatePrm) (opts : OptFns) :
    ((S3.Create s env id target v prm opts).2.1.counters).sumOf .create =
      s.counters.sumOf .create + 1 := by
  unfold S3.Create
  repeat' split
  all_goals try simp_all [Counters.sumOf, Counters.incCreated, Counters.incCreatedFailed]
  all_goals omega

theorem s3_update_delta (s : S3) (env : S3Env) (id target : String) (v : Json)
    (prm : Option UpdatePrm) (opts : OptFns) :
    ((S3.Update s env id target v prm opts).2.1.counters).sumOf .update =
      s.counters.sumOf .update + 1 := by
  unfold S3.Update
  repeat' split
  all_goals try simp_all [Counters.sumOf, Counters.incUpdated, Counters.incUpdatedFailed]
  all_goals omega

/-- C5: `TargetName(name, alternative)` is total and returns the first
non-empty of its two string arguments: a non-empty `name` is returned as is;
otherwise a non-empty `alternative`; when both are empty it returns the
missing-target error together with the empty string. -/
theorem c5_targetName_first_nonempty (name alternative : String) :
    (name ≠ "" → TargetName name alternative = (name, none)) ∧
    (name = "" → alternative ≠ "" → TargetName name alternative = (alternative, none)) ∧
    (name = "" → alternative = "" →
      TargetName name alternative = ("", some (Err.missing "target name"))) := by
  refine ⟨fun h => ?_, fun h1 h2 => ?_, fun h1 h2 => ?_⟩ <;> simp [TargetName, *]

/-- Witness for C5 at concrete inputs. -/
theorem c5_targetName_first_nonempty_witness :
    TargetName "users" "" = ("users", none) ∧
    TargetName "" "fallback" = ("fallback", none) ∧
    TargetName "" "" = ("", some (Err.missing "target name")) :=
  ⟨(c5_targetName_first_nonempty "users" "").1 (by decide),
   (c5_targetName_first_nonempty "" "fallback").2.1 rfl (by decide),
   (c5_targetName_first_nonempty "" "").2.2 rfl rfl⟩

/-- C6 counterexample: even with `DAL_METRICS_PREFIX` unset, the identifier
`storage.New` registers for the memory adapter's created counter is not
`"storage.memory.created.counter"`: `metrics.NewInt` appends `"--"` and the
formatted creation time. -/
theorem c6_counterexample :
    metricsNewIntName "" "2024-01-02T03:04:05Z" (storageCounterBase "memory" "created") ≠
      "storage.memory.created.counter" := by
  decide

/-- C6 as amended: each counter identifier is
`"storage.<name>.<status>.counter--<RFC3339 creation time>"`, prefixed with
`"<DAL_METRICS_PREFIX>."` exactly when that environment value is non-empty;
every identifier `storage.New` creates arises this way from one of its
fourteen status segments. -/
theorem c6_amended (envPfx now name : String) :
    (∀ status : String,
      metricsNewIntName envPfx now (storageCounterBase name status) =
        (if envPfx = "" then "" else envPfx ++ ".") ++
          ("storage." ++ name ++ "." ++ status ++ ".counter" ++ "--" ++ now)) ∧
    ∀ ident ∈ storageNewCounterIds envPfx now name, ∃ status ∈ storageCounterStatuses,
      ident = metricsNewIntName envPfx now (storageCounterBase name status) := by
  constructor
  · intro status
    by_cases h : envPfx = "" <;>
      simp [metricsNewIntName, storageCounterBase, storageType,
        DefaultMetricCounterLabel, h, String.append_assoc]
  · intro ident hid
    simp only [storageNewCounterIds, List.mem_map] at hid
    obtain ⟨status, hst, rfl⟩ := hid
    exact ⟨status, hst, rfl⟩

/-- Witness for C6 as amended, at a concrete prefix, time and storage name. -/
theorem c6_amended_witness :
    metricsNewIntName "acme" "t0" (storageCounterBase "memory" "created") =
      (if ("acme" : String) = "" then "" else "acme" ++ ".") ++
        ("storage." ++ "memory" ++ "." ++ "created" ++ ".counter" ++ "--" ++ "t0") :=
  (c6_amended "acme" "t0" "memory").1 "created"

/-- C3 counterexample: with two adapters whose Retrieve calls both fail,
`RetrieveFromMany` returns the first child error alone, not the aggregate
multi-error collecting every child error. -/
theorem c3_counterexample :
    RetrieveFromMany (T := Json) [("m1", (1 : Nat)), ("m2", 2)]
        (fun n => .error (if n = 1 then Err.failedTo "r1" else Err.failedTo "r2")) =
      (none, some (Err.failedTo "r1")) ∧
    some (Err.failedTo "r1") ≠
      some (Err.aggregate [Err.failedTo "r1", Err.failedTo "r2"]) := by
  refine ⟨rfl, ?_⟩
  intro h
  simp at h

/-- C3 as amended: for `CountFromMany`, `CreateIntoMany`, `DeleteFromMany`,
`ListFromMany` and `UpdateIntoMany`, any child error yields a nil payload
and the aggregate of every collected child error, and no child error yields
a nil error; `RetrieveFromMany` yields a nil payload but only the first
collected child error. -/
theorem c3_amended {σ T : Type} (m : StorageMap σ)
    (cInt : σ → Except Err Int) (cStr : σ → Except Err String)
    (cUnit : σ → Except Err Unit) (cList : σ → Except Err (List T))
    (cT : σ → Except Err T) :
    (∀ r errs, concurrentloopMap (toSlice m) cInt = (r, errs) →
      (errs ≠ [] → CountFromMany m cInt = (none, some (.aggregate errs))) ∧
      (errs = [] → CountFromMany m cInt = (some r, none))) ∧
    (∀ r errs, concurrentloopMap (toSlice m) cStr = (r, errs) →
      (errs ≠ [] → CreateIntoMany m cStr = (none, some (.aggregate errs))) ∧
      (errs = [] → CreateIntoMany m cStr = (some r, none))) ∧
    (∀ r errs, concurrentloopMap (toSlice m)
        (fun s => match cUnit s with
          | .error e => .error e
          | .ok _ => .ok true) = (r, errs) →
      (errs ≠ [] → DeleteFromMany m cUnit = (none, some (.aggregate errs))) ∧
      (errs = [] → DeleteFromMany m cUnit = (some r, none))) ∧
    (∀ r errs, concurrentloopMap (toSlice m) cList = (r, errs) →
      (errs ≠ [] → ListFromMany m cList = (none, some (.aggregate errs))) ∧
      (errs = [] → ListFromMany m cList = (some (Flatten2D r), none))) ∧
    (∀ r errs, concurrentloopMap (toSlice m)
        (fun s => match cUnit s with
          | .error e => .error e
          | .ok _ => .ok true) = (r, errs) →
      (errs ≠ [] → UpdateIntoMany m cUnit = (none, some (.aggregate errs))) ∧
      (errs = [] → UpdateIntoMany m cUnit = (some r, none))) ∧
    (∀ r e tail, concurrentloopMap (toSlice m) cT = (r, e :: tail) →
      RetrieveFromMany m cT = (none, some e)) ∧
    (∀ r, concurrentloopMap (toSlice m) cT = (r, []) →
      RetrieveFromMany m cT = (some r, none)) := by
  refine ⟨fun r errs h => ?_, fun r errs h => ?_, fun r errs h => ?_,
    fun r errs h => ?_, fun r errs h => ?_, fun r e tail h => ?_, fun r h => ?_⟩
  · unfold CountFromMany
    rw [h]
    cases errs <;> simp
  · unfold CreateIntoMany
    rw [h]
    cases errs <;> simp
  · unfold DeleteFromMany
    rw [h]
    cases errs <;> simp
  · unfold ListFromMany
    rw [h]
    cases errs <;> simp
  · unfold UpdateIntoMany
    rw [h]
    cases errs <;> simp
  · unfold RetrieveFromMany
    rw [h]
  · unfold RetrieveFromMany
    rw [h]

/-- Witness for C3 as amended: a concrete two-adapter map with one failing
Count child. -/
theorem c3_amended_witness :
    CountFromMany [("a", (1 : Nat)), ("b", 2)]
        (fun n => if n = 1 then .ok 7 else .error (Err.failedTo "count")) =
      (none, some (.aggregate [Err.failedTo "count"])) :=
  ((c3_amended [("a", (1 : Nat)), ("b", 2)]
      (fun n => if n = 1 then .ok 7 else .error (Err.failedTo "count"))
      (fun _ => .ok "") (fun _ => .ok ()) (fun _ => .ok ([] : List Json))
      (fun _ => .ok (Json.null))).1 [7] [Err.failedTo "count"] rfl).1 (by simp)

/-- C4 counterexample: `Insightly.Delete` called with an empty id does not
return the `Required("id")` missing-field error — it performs no id check
and returns the 501 not-implemented error. -/
theorem c4_counterexample :
    (Insightly.Delete insightly0 "" "contacts" none []).1 = .err (.httpErr 501) ∧
    Res.err (Err.httpErr 501) ≠ (Res.err (Err.required "id") : Res Unit) := by
  refine ⟨rfl, ?_⟩
  intro h
  simp at h

/-- C4 as amended: for the modelled adapters, Retrieve, Update and Delete
with an empty id return `Required("id")` before any driver or backing-store
access — the adapter state except the operation's failed counter is
unchanged and no event is emitted — except `Insightly.Delete`, which has no
id check and returns the 501 not-implemented error (still incrementing only
the deleted-failed counter with no driver access). -/
theorem c4_amended :
    (∀ (s : File) env target prm opts, File.Retrieve s env "" target prm opts =
      (.err (.required "id"), { s with counters := s.counters.incRetrievedFailed }, [])) ∧
    (∀ (s : File) env target v prm opts, File.Update s env "" target v prm opts =
      (.err (.required "id"), { s with counters := s.counters.incUpdatedFailed }, [])) ∧
    (∀ (s : File) env target prm opts, File.Delete s env "" target prm opts =
      (.err (.required "id"), { s with counters := s.counters.incDeletedFailed }, [])) ∧
    (∀ (s : Memory) target prm opts, Memory.Retrieve s "" target prm opts =
      (.err (.required "id"), { s with counters := s.counters.incRetrievedFailed }, [])) ∧
    (∀ (s : Memory) target v prm opts, Memory.Update s "" target v prm opts =
      (.err (.required "id"), { s with counters := s.counters.incUpdatedFailed }, [])) ∧
    (∀ (s : Memory) target prm opts, Memory.Delete s "" target prm opts =
      (.err (.required "id"), { s with counters := s.counters.incDeletedFailed }, [])) ∧
    (∀ (s : Redis) env target prm opts, Redis.Retrieve s env "" target prm opts =
      (.err (.required "id"), { s with counters := s.counters.incRetrievedFailed }, [])) ∧
    (∀ (s : Redis) env target v prm opts, Redis.Update s env "" target v prm opts =
      (.err (.required "id"), { s with counters := s.counters.incUpdatedFailed }, [])) ∧
    (∀ (s : Redis) env target prm opts, Redis.Delete s env "" target prm opts =
      (.err (.required "id"), { s with counters := s.counters.incDeletedFailed }, [])) ∧
    (∀ (s : Insightly) target prm opts, Insightly.Retrieve s "" target prm opts =
      (.err (.required "id"), { s with counters := s.counters.incRetrievedFailed }, [])) ∧
    (∀ (s : Insightly) target v prm opts, Insightly.Update s "" target v prm opts =
      (.err (.required "id"), { s with counters := s.counters.incUpdatedFailed }, [])) ∧
    (∀ (s : Insightly) target prm opts, Insightly.Delete s "" target prm opts =
      (.err (.httpErr 501), { s with counters := s.counters.incDeletedFailed }, [])) := by
  refine ⟨?_, ?_, ?_, ?_, ?_, ?_, ?_, ?_, ?_, ?_, ?_, ?_⟩ <;> intros <;>
    simp [File.Retrieve, File.Update, File.Delete, Memory.Retrieve, Memory.Update,
      Memory.Delete, Redis.Retrieve, Redis.Update, Redis.Delete, Insightly.Retrieve,
      Insightly.Update, Insightly.Delete]

/-- C2, evaluation at the failing inputs: a failed `Insightly.Retrieve`
(non-empty id) increments the retrieved success counter and no failed
counter; `Insightly.List` and `Insightly.Update` behave the same way for
their operations; `File.Retrieve` whose target resolution fails increments
the deleted-failed counter instead of retrieved-failed; `Redis.Update`
whose SET fails increments counted-failed instead of updated-failed. -/
theorem c2_wrong_counter_eval :
    Insightly.Retrieve insightly0 "c-1" "contacts" none [] =
      (.err (.httpErr 501),
        { insightly0 with counters := { Counters.init with retrieved := 1 } }, []) ∧
    Insightly.List insightly0 "contacts" none [] =
      (.err (.httpErr 501),
        { insightly0 with counters := { Counters.init with listed := 1 } }, []) ∧
    Insightly.Update insightly0 "c-1" "contacts" .null none [] =
      (.err (.httpErr 501),
        { insightly0 with counters := { Counters.init with updated := 1 } }, []) ∧
    File.Retrieve file0 fileEnv0 "x" "" none [] =
      (.err (.missing "target name"),
        { file0 with counters := { Counters.init with deletedFailed := 1 } }, []) ∧
    (Redis.Update redis0 { redisEnv0 with setErr := true } "x" "t" .null none []).2.1 =
      { redis0 with counters := { Counters.init with countedFailed := 1 } } ∧
    (Redis.Update redis0 { redisEnv0 with setErr := true } "x" "t" .null none []).1 =
      .err (.failedTo "update") :=
  ⟨rfl, rfl, rfl, rfl, rfl, rfl⟩

/-- C10 counterexample: a call to `File.Create` with a nil parameter whose
option list contains `WithPreHook(nil)` returns the required-pre-hook error
instead of panicking — the failing option function runs before the
`prm.Any` dereference. -/
theorem c10_counterexample :
    File.Create file0 fileEnv0 "id1" "/tmp/f" .null none [WithPreHook none] =
      (.err ErrRequiredPreHook,
        { file0 with counters := { Counters.init with createdFailed := 1 } }, []) ∧
    (File.Create file0 fileEnv0 "id1" "/tmp/f" .null none [WithPreHook none]).1.isPanic =
      false :=
  ⟨rfl, rfl⟩

/-- C10 as amended: every call to `File.Create` with a nil Create parameter
in which no supplied option function errors (in particular every call with
no options) dereferences `prm.Any` and panics with a nil-pointer
dereference before the parameter-defaulting step, before any file or
directory is created and before any OS call: the state is returned
unchanged with an empty event trace. -/
theorem c10_amended (s : File) (env : FileEnv) (id target : String) (v : Json)
    (opts : OptFns) (o : Options) (h : applyOptions opts NewOptions = .ok o) :
    File.Create s env id target v none opts =
      (.panicked "invalid memory address or nil pointer dereference", s, []) := by
  unfold File.Create
  rw [h]

/-- Witness for C10 as amended: the optionless nil-parameter call panics
with the file system untouched. -/
theorem c10_amended_witness :
    File.Create file0 fileEnv0 "id1" "/tmp/f" .null none [] =
      (.panicked "invalid memory address or nil pointer dereference", file0, []) :=
  c10_amended file0 fileEnv0 "id1" "/tmp/f" .null [] NewOptions rfl

/-- C9 counterexample: when the caller supplies a Count parameter whose
`Search` is empty, the pattern `Redis.Count` passes to `KEYS` is the empty
string, not `"*"`. -/
theorem c9_counterexample :
    (Redis.Count redis0 redisEnv0 "t" (some ⟨""⟩) []).2.2 = [Ev.redisKeys ""] ∧
    Ev.redisKeys "*" ∉ (Redis.Count redis0 redisEnv0 "t" (some ⟨""⟩) []).2.2 :=
  ⟨rfl, by decide⟩

/-- C9 as amended: the pattern `Redis.Count` passes to the `KEYS` command is
`"*"` when the caller supplies no parameter object, and the caller's
`Search` verbatim — including the empty string — when a parameter object is
supplied. -/
theorem c9_amended (s : Redis) (env : RedisEnv) (target : String)
    (prm : Option CountPrm) (opts : OptFns) (pat : String)
    (h : Ev.redisKeys pat ∈ (Redis.Count s env target prm opts).2.2) :
    pat = match prm with
      | none => "*"
      | some p => p.Search := by
  unfold Redis.Count at h
  cases prm <;> (repeat' split at h) <;> simp_all [countNew]

/-- Witness for C9 as amended: the parameterless call emits the `KEYS`
command with pattern `"*"`. -/
theorem c9_amended_witness :
    ("*" : String) = (match (none : Option CountPrm) with
      | none => "*"
      | some p => p.Search) :=
  c9_amended redis0 redisEnv0 "t" none [] "*" (by decide)

/-- C8 counterexample: `File.Create` with `Any = CreateAny{CreateIfNotExist:
true}` creates the parent directory and touches the file before the
pre-hook runs; when the pre-hook then errors, the call returns that error
but the created directory and file persist — the stored state is changed. -/
theorem c8_counterexample :
    File.Create file0 fileEnv0 "id1" "/tmp/sub/x.json" .null
        (some ⟨0, some ⟨true⟩⟩) [WithPreHook (some (some (Err.customMsg "boom")))] =
      (.err (Err.customMsg "boom"),
        { file0 with
          dirs := ["/tmp/sub"], files := [("/tmp/sub/x.json", "")],
          counters := { Counters.init with createdFailed := 1 } },
        [Ev.osStat "/tmp/sub", Ev.osMkdirAll "/tmp/sub", Ev.osStat "/tmp/sub/x.json",
          Ev.osCreate "/tmp/sub/x.json", Ev.preHook]) ∧
    ([("/tmp/sub/x.json", "")] : List (String × String)) ≠ file0.files :=
  ⟨rfl, by decide⟩

/-- C8 as amended: for every modelled operation that applies options and
runs hooks, an installed pre-hook that errors makes the operation return
that error with only the operation's failed counter incremented, the
pre-hook invocation as the only event (no driver or store access, post-hook
never invoked) and the stored state unchanged — except `File.Create`, whose
`CreateAny` pre-block runs before the pre-hook (see the counterexample);
with no `CreateAny` payload `File.Create` also leaves the state unchanged. -/
theorem c8_amended :
    (∀ (s : File) env target prm opts o e, applyOptions opts NewOptions = .ok o →
      o.PreHookFunc = some (some e) → target ≠ "" →
      File.Count s env target prm opts =
        (.err e, { s with counters := s.counters.incCountedFailed }, [.preHook])) ∧
    (∀ (s : File) env id target prm opts o e, applyOptions opts NewOptions = .ok o →
      o.PreHookFunc = some (some e) → id ≠ "" → target ≠ "" →
      File.Delete s env id target prm opts =
        (.err e, { s with counters := s.counters.incDeletedFailed }, [.preHook])) ∧
    (∀ (s : File) env id target prm opts o e, applyOptions opts NewOptions = .ok o →
      o.PreHookFunc = some (some e) → id ≠ "" → target ≠ "" →
      File.Retrieve s env id target prm opts =
        (.err e, { s with counters := s.counters.incRetrievedFailed }, [.preHook])) ∧
    (∀ (s : File) env target prm opts o e, applyOptions opts NewOptions = .ok o →
      o.PreHookFunc = some (some e) → target ≠ "" →
      File.List s env target prm opts =
        (.err e, { s with counters := s.counters.incListedFailed }, [.preHook])) ∧
    (∀ (s : File) env id target v (p : CreatePrm) opts o e,
      applyOptions opts NewOptions = .ok o →
      o.PreHookFunc = some (some e) → p.AnySlot = none → target ≠ "" →
      File.Create s env id target v (some p) opts =
        (.err e, { s with counters := s.counters.incCreatedFailed }, [.preHook])) ∧
    (∀ (s : File) env id target v prm opts o e, applyOptions opts NewOptions = .ok o →
      o.PreHookFunc = some (some e) → id ≠ "" → target ≠ "" →
      File.Update s env id target v prm opts =
        (.err e, { s with counters := s.counters.incUpdatedFailed }, [.preHook])) ∧
    (∀ (s : Memory) target prm opts o e, applyOptions opts NewOptions = .ok o →
      o.PreHookFunc = some (some e) →
      Memory.Count s target prm opts =
        (.err e, { s with counters := s.counters.incCountedFailed }, [.preHook])) ∧
    (∀ (s : Memory) id target prm opts o e, applyOptions opts NewOptions = .ok o →
      o.PreHookFunc = some (some e) → id ≠ "" →
      Memory.Delete s id target prm opts =
        (.err e, { s with counters := s.counters.incDeletedFailed }, [.preHook])) ∧
    (∀ (s : Memory) id target prm opts o e, applyOptions opts NewOptions = .ok o →
      o.PreHookFunc = some (some e) → id ≠ "" →
      Memory.Retrieve s id target prm opts =
        (.err e, { s with counters := s.counters.incRetrievedFailed }, [.preHook])) ∧
    (∀ (s : Memory) target prm opts o e, applyOptions opts NewOptions = .ok o →
      o.PreHookFunc = some (some e) →
      Memory.List s target prm opts =
        (.err e, { s with counters := s.counters.incListedFailed }, [.preHook])) ∧
    (∀ (s : Memory) id target v prm opts o e, applyOptions opts NewOptions = .ok o →
      o.PreHookFunc = some (some e) →
      Memory.Create s id target v prm opts =
        (.err e, { s with counters := s.counters.incCreatedFailed }, [.preHook])) ∧
    (∀ (s : Memory) id target v prm opts o e, applyOptions opts NewOptions = .ok o →
      o.PreHookFunc = some (some e) → id ≠ "" →
      Memory.Update s id target v prm opts =
        (.err e, { s with counters := s.counters.incUpdatedFailed }, [.preHook])) ∧
    (∀ (s : Redis) env target prm opts o e, applyOptions opts NewOptions = .ok o →
      o.PreHookFunc = some (some e) →
      Redis.Count s env target prm opts =
        (.err e, { s with counters := s.counters.incCountedFailed }, [.preHook])) ∧
    (∀ (s : Redis) env id target prm opts o e, applyOptions opts NewOptions = .ok o →
      o.PreHookFunc = some (some e) → id ≠ "" →
      Redis.Delete s env id target prm opts =
        (.err e, { s with counters := s.counters.incDeletedFailed }, [.preHook])) ∧
    (∀ (s : Redis) env id target prm opts o e, applyOptions opts NewOptions = .ok o →
      o.PreHookFunc = some (some e) → id ≠ "" →
      Redis.Retrieve s env id target prm opts =
        (.err e, { s with counters := s.counters.incRetrievedFailed }, [.preHook])) ∧
    (∀ (s : Redis) env target prm opts o e, applyOptions opts NewOptions = .ok o →
      o.PreHookFunc = some (some e) →
      Redis.List s env target prm opts =
        (.err e, { s with counters := s.counters.incListedFailed }, [.preHook])) ∧
    (∀ (s : Redis) env id target v prm opts o e, applyOptions opts NewOptions = .ok o →
      o.PreHookFunc = some (some e) →
      Redis.Create s env id target v prm opts =
        (.err e, { s with counters := s.counters.incCreatedFailed }, [.preHook])) ∧
    (∀ (s : Redis) env id target v prm opts o e, applyOptions opts NewOptions = .ok o →
      o.PreHookFunc = some (some e) → id ≠ "" →
      Redis.Update s env id target v prm opts =
        (.err e, { s with counters := s.counters.incUpdatedFailed }, [.preHook])) ∧
    (∀ (s : Insightly) env id target v prm opts o e, applyOptions opts NewOptions = .ok o →
      o.PreHookFunc = some (some e) → id ≠ "" → target ≠ "" →
      Insightly.Create s env id target v prm opts =
        (.err e, { s with counters := s.counters.incCreatedFailed }, [.preHook])) := by
  refine ⟨?_, ?_, ?_, ?_, ?_, ?_, ?_, ?_, ?_, ?_, ?_, ?_, ?_, ?_, ?_, ?_, ?_, ?_, ?_⟩
  · intro s env target prm opts o e hap hpre ht
    unfold File.Count
    rw [hap]
    cases prm <;> simp [TargetName, ht, hpre]
  · intro s env id target prm opts o e hap hpre hid ht
    unfold File.Delete
    rw [if_neg hid, hap]
    cases prm <;> simp [TargetName, ht, hpre]
  · intro s env id target prm opts o e hap hpre hid ht
    unfold File.Retrieve
    rw [if_neg hid, hap]
    cases prm <;> simp [TargetName, ht, hpre]
  · intro s env target prm opts o e hap hpre ht
    unfold File.List
    rw [hap]
    cases prm <;> simp [TargetName, ht, hpre]
  · intro s env id target v p opts o e hap hpre hany ht
    unfold File.Create
    rw [hap]
    simp [fileCreateAnyBlock, hany, TargetName, ht, hpre]
  · intro s env id target v prm opts o e hap hpre hid ht
    unfold File.Update
    rw [if_neg hid, hap]
    cases prm <;> simp [TargetName, ht, hpre]
  · intro s target prm opts o e hap hpre
    unfold Memory.Count
    rw [hap]
    cases prm <;> simp [hpre]
  · intro s id target prm opts o e hap hpre hid
    unfold Memory.Delete
    rw [if_neg hid, hap]
    cases prm <;> simp [hpre]
  · intro s id target prm opts o e hap hpre hid
    unfold Memory.Retrieve
    rw [if_neg hid, hap]
    cases prm <;> simp [hpre]
  · intro s target prm opts o e hap hpre
    unfold Memory.List
    rw [hap]
    cases prm <;> simp [hpre]
  · intro s id target v prm opts o e hap hpre
    unfold Memory.Create
    rw [hap]
    cases prm <;> simp [hpre]
  · intro s id target v prm opts o e hap hpre hid
    unfold Memory.Update
    rw [if_neg hid, hap]
    cases prm <;> simp [hpre]
  · intro s env target prm opts o e hap hpre
    unfold Redis.Count
    rw [hap]
    cases prm <;> simp [hpre]
  · intro s env id target prm opts o e hap hpre hid
    unfold Redis.Delete
    rw [if_neg hid, hap]
    cases prm <;> simp [hpre]
  · intro s env id target prm opts o e hap hpre hid
    unfold Redis.Retrieve
    rw [if_neg hid, hap]
    cases prm <;> simp [hpre]
  · intro s env target prm opts o e hap hpre
    unfold Redis.List
    rw [hap]
    cases prm <;> simp [hpre]
  · intro s env id target v prm opts o e hap hpre
    unfold Redis.Create
    rw [hap]
    cases prm <;> simp [hpre]
  · intro s env id target v prm opts o e hap hpre hid
    unfold Redis.Update
    rw [if_neg hid, hap]
    cases prm <;> simp [hpre]
  · intro s env id target v prm opts o e hap hpre hid ht
    unfold Insightly.Create
    rw [if_neg hid, hap]
    cases prm <;> simp [TargetName, ht, hpre]

/-- Witness for C8 as amended: a concrete erring pre-hook on
`Redis.Delete` short-circuits before the `DEL`. -/
theorem c8_amended_witness :
    Redis.Delete redis0 redisEnv0 "k" "t" none
        [WithPreHook (some (some (Err.customMsg "stop")))] =
      (.err (Err.customMsg "stop"),
        { redis0 with counters := redis0.counters.incDeletedFailed }, [.preHook]) :=
  c8_amended.2.2.2.2.2.2.2.2.2.2.2.2.2.1 redis0 redisEnv0 "k" "t" none
    [WithPreHook (some (some (Err.customMsg "stop")))]
    { NewOptions with PreHookFunc := some (some (Err.customMsg "stop")) }
    (Err.customMsg "stop") rfl rfl (by decide)

/-- C7: round-trip on the in-memory adapter — for every non-empty `id` and
every JSON value `v`, `Memory.Create` succeeds and a subsequent
`Memory.Retrieve` with the same `id` (any targets) returns exactly `v`:
the JSON marshal/unmarshal pair is the identity on the modelled values. -/
theorem c7_roundtrip (st : Memory) (id t1 t2 : String) (v : Json)
    (prmC : Option CreatePrm) (prmR : Option RetrievePrm) (hid : id ≠ "") :
    (Memory.Create st id t1 v prmC []).1 = .ok id ∧
    (Memory.Retrieve (Memory.Create st id t1 v prmC []).2.1 id t2 prmR []).1 = .ok v := by
  refine ⟨rfl, ?_⟩
  have h1 : (Memory.Create st id t1 v prmC []).2.1 =
      { st with
        store := storePut st.store id (sharedMarshal v),
        counters := st.counters.incCreated } := rfl
  rw [h1]
  unfold Memory.Retrieve
  rw [if_neg hid]
  simp [applyOptions, NewOptions, storeGet, storePut, sharedUnmarshal_sharedMarshal]

/-- Witness for C7 at a concrete input. -/
theorem c7_roundtrip_witness :
    (Memory.Create memory0 "a" "t" (Json.str "x") none []).1 = .ok "a" ∧
    (Memory.Retrieve (Memory.Create memory0 "a" "t" (Json.str "x") none []).2.1
        "a" "t" none []).1 = .ok (Json.str "x") :=
  c7_roundtrip memory0 "a" "t" "t" (Json.str "x") none none (by decide)

/-- C1 counterexample: `File.Delete` on a missing file returns success and
leaves every counter unchanged — the sum of the delete success and failed
counters does not increase by 1 as claimed. -/
theorem c1_counterexample :
    (File.Delete file0 fileEnv0 "x" "t" none []).1 = .ok () ∧
    (File.Delete file0 fileEnv0 "x" "t" none []).2.1.counters = file0.counters ∧
    ((File.Delete file0 fileEnv0 "x" "t" none []).2.1.counters).sumOf .delete =
      file0.counters.sumOf .delete :=
  ⟨rfl, rfl, rfl⟩

/-- C1 as amended: every operation of the modelled File, Memory, Redis,
Insightly and S3 adapters increases the sum of its own success and failed
counter by exactly one, except five documented deviations: `File.Delete` on
a missing file returns success with counters unchanged; `File.Retrieve` on
a failed target resolution bumps the deleted-failed counter instead of a
retrieve counter (src/file/types.go line 342); `S3.Retrieve` likewise bumps
deleted-failed on a failed target resolution (src/s3/s3.go line 349);
`File.Create` with a nil parameter panics with counters unchanged (and
otherwise increments by one); `Redis.Update` on a failing `SET` bumps the
counted-failed counter instead of updated-failed. -/
theorem c1_amended :
    (∀ (s : File) env target prm opts,
      ((File.Count s env target prm opts).2.1.counters).sumOf .count =
        s.counters.sumOf .count + 1) ∧
    (∀ (s : File) env id target prm opts,
      ((File.Delete s env id target prm opts).2.1.counters).sumOf .delete =
          s.counters.sumOf .delete + 1 ∨
        ((File.Delete s env id target prm opts).1 = .ok () ∧
          (File.Delete s env id target prm opts).2.1.counters = s.counters)) ∧
    (∀ (s : File) env id target prm opts,
      ((File.Retrieve s env id target prm opts).2.1.counters).sumOf .retrieve =
          s.counters.sumOf .retrieve + 1 ∨
        (File.Retrieve s env id target prm opts).2.1.counters =
          s.counters.incDeletedFailed) ∧
    (∀ (s : File) env target prm opts,
      ((File.List s env target prm opts).2.1.counters).sumOf .list =
        s.counters.sumOf .list + 1) ∧
    (∀ (s : File) env id target v prm opts,
      (((File.Create s env id target v prm opts).1.isPanic = false) →
        ((File.Create s env id target v prm opts).2.1.counters).sumOf .create =
          s.counters.sumOf .create + 1) ∧
      (((File.Create s env id target v prm opts).1.isPanic = true) →
        (File.Create s env id target v prm opts).2.1.counters = s.counters)) ∧
    (∀ (s : File) env id target v prm opts,
      ((File.Update s env id target v prm opts).2.1.counters).sumOf .update =
        s.counters.sumOf .update + 1) ∧
    (∀ (s : Memory) target prm opts,
      ((Memory.Count s target prm opts).2.1.counters).sumOf .count =
        s.counters.sumOf .count + 1) ∧
    (∀ (s : Memory) id target prm opts,
      ((Memory.Delete s id target prm opts).2.1.counters).sumOf .delete =
        s.counters.sumOf .delete + 1) ∧
    (∀ (s : Memory) id target prm opts,
      ((Memory.Retrieve s id target prm opts).2.1.counters).sumOf .retrieve =
        s.counters.sumOf .retrieve + 1) ∧
    (∀ (s : Memory) target prm opts,
      ((Memory.List s target prm opts).2.1.counters).sumOf .list =
        s.counters.sumOf .list + 1) ∧
    (∀ (s : Memory) id target v prm opts,
      ((Memory.Create s id target v prm opts).2.1.counters).sumOf .create =
        s.counters.sumOf .create + 1) ∧
    (∀ (s : Memory) id target v prm opts,
      ((Memory.Update s id target v prm opts).2.1.counters).sumOf .update =
        s.counters.sumOf .update + 1) ∧
    (∀ (s : Redis) env target prm opts,
      ((Redis.Count s env target prm opts).2.1.counters).sumOf .count =
        s.counters.sumOf .count + 1) ∧
    (∀ (s : Redis) env id target prm opts,
      ((Redis.Delete s env id target prm opts).2.1.counters).sumOf .delete =
        s.counters.sumOf .delete + 1) ∧
    (∀ (s : Redis) env id target prm opts,
      ((Redis.Retrieve s env id target prm opts).2.1.counters).sumOf .retrieve =
        s.counters.sumOf .retrieve + 1) ∧
    (∀ (s : Redis) env target prm opts,
      ((Redis.List s env target prm opts).2.1.counters).sumOf .list =
        s.counters.sumOf .list + 1) ∧
    (∀ (s : Redis) env id target v prm opts,
      ((Redis.Create s env id target v prm opts).2.1.counters).sumOf .create =
        s.counters.sumOf .create + 1) ∧
    (∀ (s : Redis) env id target v prm opts,
      ((Redis.Update s env id target v prm opts).2.1.counters).sumOf .update =
          s.counters.sumOf .update + 1 ∨
        ((Redis.Update s env id target v prm opts).1 = .err (.failedTo "update") ∧
          (Redis.Update s env id target v prm opts).2.1.counters =
            s.counters.incCountedFailed)) ∧
    (∀ (s : Insightly) target prm opts,
      ((Insightly.Count s target prm opts).2.1.counters).sumOf .count =
        s.counters.sumOf .count + 1) ∧
    (∀ (s : Insightly) id target prm opts,
      ((Insightly.Delete s id target prm opts).2.1.counters).sumOf .delete =
        s.counters.sumOf .delete + 1) ∧
    (∀ (s : Insightly) id target prm opts,
      ((Insightly.Retrieve s id target prm opts).2.1.counters).sumOf .retrieve =
        s.counters.sumOf .retrieve + 1) ∧
    (∀ (s : Insightly) target prm opts,
      ((Insightly.List s target prm opts).2.1.counters).sumOf .list =
        s.counters.sumOf .list + 1) ∧
    (∀ (s : Insightly) id target v prm opts,
      ((Insightly.Update s id target v prm opts).2.1.counters).sumOf .update =
        s.counters.sumOf .update + 1) ∧
    (∀ (s : Insightly) env id target v prm opts,
      ((Insightly.Create s env id target v prm opts).2.1.counters).sumOf .create =
        s.counters.sumOf .create + 1) ∧
    (∀ (s : S3) env target prm opts,
      ((S3.Count s env target prm opts).2.1.counters).sumOf .count =
        s.counters.sumOf .count + 1) ∧
    (∀ (s : S3) env id target prm opts,
      ((S3.Delete s env id target prm opts).2.1.counters).sumOf .delete =
        s.counters.sumOf .delete + 1) ∧
    (∀ (s : S3) env id target prm opts,
      ((S3.Retrieve s env id target prm opts).2.1.counters).sumOf .retrieve =
          s.counters.sumOf .retrieve + 1 ∨
        (S3.Retrieve s env id target prm opts).2.1.counters =
          s.counters.incDeletedFailed) ∧
    (∀ (s : S3) env target prm opts,
      ((S3.List s env target prm opts).2.1.counters).sumOf .list =
        s.counters.sumOf .list + 1) ∧
    (∀ (s : S3) env id target v prm opts,
      ((S3.Create s env id target v prm opts).2.1.counters).sumOf .create =
        s.counters.sumOf .create + 1) ∧
    (∀ (s : S3) env id target v prm opts,
      ((S3.Update s env id target v prm opts).2.1.counters).sumOf .update =
        s.counters.sumOf .update + 1) :=
  ⟨file_count_delta, file_delete_delta, file_retrieve_delta, file_list_delta,
    fun s env id target v prm opts => file_create_delta s env id target v prm opts,
    file_update_delta, memory_count_delta, memory_delete_delta,
    memory_retrieve_delta, memory_list_delta, memory_create_delta,
    memory_update_delta, redis_count_delta, redis_delete_delta,
    redis_retrieve_delta, redis_list_delta, redis_create_delta,
    redis_update_delta, insightly_count_delta, insightly_delete_delta,
    insightly_retrieve_delta, insightly_list_delta, insightly_update_delta,
    insightly_create_delta, s3_count_delta, s3_delete_delta,
    s3_retrieve_delta, s3_list_delta, s3_create_delta, s3_update_delta⟩

/-- Witness for C1 as amended: a concrete non-panicking `File.Create`
increments the create-counter sum by one. -/
theorem c1_amended_witness :
    (File.Create file0 fileEnv0 "a" "/tmp/a.json" Json.null
        (some ⟨0, none⟩) []).1.isPanic = false ∧
    ((File.Create file0 fileEnv0 "a" "/tmp/a.json" Json.null
        (some ⟨0, none⟩) []).2.1.counters).sumOf .create =
      file0.counters.sumOf .create + 1 :=
  ⟨rfl, (c1_amended.2.2.2.2.1 file0 fileEnv0 "a" "/tmp/a.json" Json.null
    (some ⟨0, none⟩) []).1 rfl⟩
